import Mathlib

/-!
Verification of the security-group test/validation suite.

Shallow embedding of:
- Validate_post_deployment.py (SecurityGroupPostDeploymentValidator)
- Validate_terraform.py (SecurityGroupConfigValidator)
- Run_all_tests.py (TestRunner)

External effects (AWS calls, subprocess exit codes, files read) are modelled
as explicit inputs; each recorded result-list entry is modelled as a
constructor of an inductive type carrying exactly the data interpolated
into the corresponding message string in the source.
-/

namespace SGTest

/-- One expected rule as read from the tfvars specification: a dict whose
keys may be absent, so every field is optional. -/
structure ExpectedRule where
  protocol : Option String
  from_port : Option Int
  to_port : Option Int
  cidr_blocks : Option (List String)
  description : Option String
deriving DecidableEq

namespace PostDeploy

/-- One observed rule of the AWS describe_security_groups response:
IpProtocol/FromPort/ToPort accessed with .get (absent gives None), and the
list of CidrIp strings of its IpRanges. -/
structure AwsRule where
  ipProtocol : Option String
  fromPort : Option Int
  toPort : Option Int
  ipRanges : List String
deriving DecidableEq

/-- The fields of the describe_security_groups response consulted by the
validator.  GroupName and its Tags are always present in a real response;
VpcId and Description are accessed with .get and kept optional. -/
structure SgDetails where
  vpcId : Option String
  groupName : String
  description : Option String
  ipPermissions : List AwsRule
  ipPermissionsEgress : List AwsRule
  tags : List (String × String)
deriving DecidableEq

/-- The expected configuration dict (terraform.tfvars.json). -/
structure ExpectedConfig where
  vpc_id : Option String
  security_group_name : Option String
  description : Option String
  ingress_rules : List ExpectedRule
  egress_rules : List ExpectedRule
  tags : List (String × String)
deriving DecidableEq

/-- The parsed outputs.json file consulted by validate_terraform_outputs. -/
structure TfOutputs where
  security_group_id : Option String
  security_group_name : Option String
  security_group_arn : Option String
deriving DecidableEq

/-- One entry of the validator's validation_results lists.  Each constructor
stands for one string appended in the source and carries exactly the data
interpolated into that string. -/
inductive Entry
  | vpcMatch (actual : Option String)
  | vpcMismatch (expected : String) (actual : Option String)
  | nameMatch (actual : String)
  | nameMismatch (expected actual : String)
  | descriptionMatch
  | descriptionDiffers (expected : String) (actual : Option String)
  | ingressRuleFound (ruleNum : Nat) (rule : ExpectedRule)
  | ingressRuleNotFound (ruleNum : Nat) (rule : ExpectedRule)
  | additionalIngressRules (diff : Nat)
  | egressRuleFound (ruleNum : Nat)
  | egressRuleNotFound (ruleNum : Nat) (rule : ExpectedRule)
  | tagMatches (key : String)
  | tagDiffers (key expected got : String)
  | tagMissing (key : String)
  | securityBestPractices
  | sensitivePortOpen (service : String) (port : Int)
  | allProtocolsOpen
  | outputsFileNotFound
  | outputIdMatches
  | outputIdMismatch
  | outputNameMatches
  | outputNameMismatch
  | outputArnValid
deriving DecidableEq

/-- The validator's validation_results dict of three lists. -/
structure VResults where
  passed : List Entry
  failed : List Entry
  warnings : List Entry
deriving DecidableEq

/-- Python substring test, as used by the name comparison in
validate_basic_properties. -/
def strIn (needle hay : String) : Bool := decide (needle.toList <:+: hay.toList)

/-- Python set(a) == set(b) on lists of CIDR strings. -/
def setEqStr (xs ys : List String) : Bool :=
  xs.all (fun x => ys.contains x) && ys.all (fun y => xs.contains y)

/-- The VPC block of validate_basic_properties. -/
def vbpVpc (cfg : ExpectedConfig) (sg : SgDetails) (s : VResults) : VResults :=
  match cfg.vpc_id with
  | some ev =>
    if sg.vpcId = some ev then {s with passed := s.passed ++ [.vpcMatch sg.vpcId]}
    else {s with failed := s.failed ++ [.vpcMismatch ev sg.vpcId]}
  | none => s

/-- The name block of validate_basic_properties (substring match either way). -/
def vbpName (cfg : ExpectedConfig) (sg : SgDetails) (s : VResults) : VResults :=
  match cfg.security_group_name with
  | some en =>
    if strIn en sg.groupName || strIn sg.groupName en then
      {s with passed := s.passed ++ [.nameMatch sg.groupName]}
    else {s with failed := s.failed ++ [.nameMismatch en sg.groupName]}
  | none => s

/-- The description block of validate_basic_properties (difference is only a
warning). -/
def vbpDescription (cfg : ExpectedConfig) (sg : SgDetails) (s : VResults) : VResults :=
  match cfg.description with
  | some ed =>
    if sg.description = some ed then {s with passed := s.passed ++ [.descriptionMatch]}
    else {s with warnings := s.warnings ++ [.descriptionDiffers ed sg.description]}
  | none => s

/-- validate_basic_properties: VPC id, group name, description in sequence.
Returns whether the cumulative failed list is empty. -/
def validate_basic_properties (s : VResults) (cfg : ExpectedConfig) (sg : SgDetails) :
    VResults × Bool :=
  let s3 := vbpDescription cfg sg (vbpName cfg sg (vbpVpc cfg sg s))
  (s3, s3.failed.isEmpty)

/-- The per-observed-rule test of _find_matching_ingress_rule: protocol and
both ports must be equal (None compares equal to None), and when the
expected rule carries cidr_blocks the two CIDR lists must be equal as sets. -/
def matches_ingress_rule (expected : ExpectedRule) (rule : AwsRule) : Bool :=
  if rule.ipProtocol ≠ expected.protocol then false
  else if rule.fromPort ≠ expected.from_port then false
  else if rule.toPort ≠ expected.to_port then false
  else match expected.cidr_blocks with
    | some cbs => setEqStr rule.ipRanges cbs
    | none => true

/-- _find_matching_ingress_rule: linear scan returning whether any observed
rule matches. -/
def find_matching_ingress_rule (expected : ExpectedRule) (actual_rules : List AwsRule) : Bool :=
  actual_rules.any (matches_ingress_rule expected)

/-- Processing of one (index, expected rule) pair in validate_ingress_rules. -/
def ingressRuleStep (actual_rules : List AwsRule) (s : VResults) (ie : Nat × ExpectedRule) :
    VResults :=
  if find_matching_ingress_rule ie.2 actual_rules then
    {s with passed := s.passed ++ [.ingressRuleFound (ie.1 + 1) ie.2]}
  else
    {s with failed := s.failed ++ [.ingressRuleNotFound (ie.1 + 1) ie.2]}

/-- validate_ingress_rules: record found/not-found per expected rule, then a
single count warning when strictly more rules were observed than expected.
Returns whether the cumulative failed list is empty. -/
def validate_ingress_rules (s : VResults) (expected_rules : List ExpectedRule)
    (actual_rules : List AwsRule) : VResults × Bool :=
  let s2 := expected_rules.enum.foldl (ingressRuleStep actual_rules) s
  let s3 :=
    if actual_rules.length > expected_rules.length then
      {s2 with warnings :=
        s2.warnings ++ [.additionalIngressRules (actual_rules.length - expected_rules.length)]}
    else s2
  (s3, s3.failed.isEmpty)

/-- _find_matching_egress_rule: textually duplicated logic of the ingress
scan in the source. -/
def matches_egress_rule (expected : ExpectedRule) (rule : AwsRule) : Bool :=
  if rule.ipProtocol ≠ expected.protocol then false
  else if rule.fromPort ≠ expected.from_port then false
  else if rule.toPort ≠ expected.to_port then false
  else match expected.cidr_blocks with
    | some cbs => setEqStr rule.ipRanges cbs
    | none => true

/-- Scan of _find_matching_egress_rule over the observed egress rules. -/
def find_matching_egress_rule (expected : ExpectedRule) (actual_rules : List AwsRule) : Bool :=
  actual_rules.any (matches_egress_rule expected)

/-- Processing of one (index, expected rule) pair in validate_egress_rules;
unlike ingress, the passed entry carries no rule data. -/
def egressRuleStep (actual_rules : List AwsRule) (s : VResults) (ie : Nat × ExpectedRule) :
    VResults :=
  if find_matching_egress_rule ie.2 actual_rules then
    {s with passed := s.passed ++ [.egressRuleFound (ie.1 + 1)]}
  else
    {s with failed := s.failed ++ [.egressRuleNotFound (ie.1 + 1) ie.2]}

/-- validate_egress_rules: like ingress but with no additional-rule count
warning. -/
def validate_egress_rules (s : VResults) (expected_rules : List ExpectedRule)
    (actual_rules : List AwsRule) : VResults × Bool :=
  let s2 := expected_rules.enum.foldl (egressRuleStep actual_rules) s
  (s2, s2.failed.isEmpty)

/-- Lookup in the dict built from the Tags list (a later duplicate key would
win, as in a Python dict comprehension). -/
def tagGet (tags : List (String × String)) (k : String) : Option String :=
  (tags.reverse.find? (fun p => p.1 == k)).map (fun p => p.2)

/-- Processing of one expected (key, value) pair in validate_tags.  Equal
value: passed; present, different and truthy (non-empty): warning; absent or
empty (falsy): failed. -/
def tagStep (actual_tags : List (String × String)) (s : VResults) (kv : String × String) :
    VResults :=
  match tagGet actual_tags kv.1 with
  | some w =>
    if w = kv.2 then {s with passed := s.passed ++ [.tagMatches kv.1]}
    else if w ≠ "" then {s with warnings := s.warnings ++ [.tagDiffers kv.1 kv.2 w]}
    else {s with failed := s.failed ++ [.tagMissing kv.1]}
  | none => {s with failed := s.failed ++ [.tagMissing kv.1]}

/-- validate_tags: compare each expected tag; unexpected observed tags are
only printed, never recorded.  Returns whether the cumulative failed list is
empty. -/
def validate_tags (s : VResults) (expected_tags actual_tags : List (String × String)) :
    VResults × Bool :=
  let s2 := expected_tags.foldl (tagStep actual_tags) s
  (s2, s2.failed.isEmpty)

/-- The sensitive_ports dict of validate_security_best_practices, in its
insertion order. -/
def sensitive_ports : List (Int × String) :=
  [(22, "SSH"), (3389, "RDP"), (3306, "MySQL"), (5432, "PostgreSQL"),
   (27017, "MongoDB"), (6379, "Redis"), (1433, "MSSQL")]

/-- Innermost loop of the sensitive-port check: one warning per IpRange
entry equal to 0.0.0.0/0, clearing the local passed flag. -/
def bpRangeStep (service : String) (port : Int) (st : VResults × Bool) (cidr : String) :
    VResults × Bool :=
  if cidr = "0.0.0.0/0" then
    ({st.1 with warnings := st.1.warnings ++ [.sensitivePortOpen service port]}, false)
  else st

/-- Middle loop: one sensitive (port, service) pair against a rule's port
range. -/
def bpPortStep (rule : AwsRule) (fp tp : Int) (st : VResults × Bool) (ps : Int × String) :
    VResults × Bool :=
  if fp ≤ ps.1 ∧ ps.1 ≤ tp then rule.ipRanges.foldl (bpRangeStep ps.2 ps.1) st else st

/-- Outer loop of the sensitive-port check.  The guard mirrors Python
truthiness of FromPort and ToPort: absent or zero ports skip the rule. -/
def bpRuleStep (st : VResults × Bool) (rule : AwsRule) : VResults × Bool :=
  match rule.fromPort, rule.toPort with
  | some fp, some tp =>
    if fp ≠ 0 ∧ tp ≠ 0 then sensitive_ports.foldl (bpPortStep rule fp tp) st else st
  | _, _ => st

/-- The all-protocol loop: protocol -1 with an unrestricted range entry. -/
def bpAllProtoRangeStep (st : VResults × Bool) (cidr : String) : VResults × Bool :=
  if cidr = "0.0.0.0/0" then
    ({st.1 with warnings := st.1.warnings ++ [.allProtocolsOpen]}, false)
  else st

/-- Outer all-protocol loop over the observed ingress rules. -/
def bpAllProtoStep (st : VResults × Bool) (rule : AwsRule) : VResults × Bool :=
  if rule.ipProtocol = some "-1" then rule.ipRanges.foldl bpAllProtoRangeStep st else st

/-- validate_security_best_practices: findings go to warnings only and the
method returns True unconditionally. -/
def validate_security_best_practices (s : VResults) (sg : SgDetails) : VResults × Bool :=
  let st1 := sg.ipPermissions.foldl bpRuleStep (s, true)
  let st2 := sg.ipPermissions.foldl bpAllProtoStep st1
  let s3 :=
    if st2.2 then {st2.1 with passed := st2.1.passed ++ [.securityBestPractices]}
    else st2.1
  (s3, true)

/-- The security_group_id block of validate_terraform_outputs. -/
def vtoId (security_group_id : String) (o : TfOutputs) (s : VResults) : VResults :=
  if o.security_group_id = some security_group_id then
    {s with passed := s.passed ++ [Entry.outputIdMatches]}
  else {s with failed := s.failed ++ [Entry.outputIdMismatch]}

/-- The security_group_name block of validate_terraform_outputs. -/
def vtoName (sg : SgDetails) (o : TfOutputs) (s : VResults) : VResults :=
  if o.security_group_name = some sg.groupName then
    {s with passed := s.passed ++ [Entry.outputNameMatches]}
  else {s with failed := s.failed ++ [Entry.outputNameMismatch]}

/-- The security_group_arn block of validate_terraform_outputs: only a
passed entry when the arn is truthy and contains the id. -/
def vtoArn (security_group_id : String) (o : TfOutputs) (s : VResults) : VResults :=
  match o.security_group_arn with
  | some arn =>
    if arn ≠ "" ∧ strIn security_group_id arn then
      {s with passed := s.passed ++ [Entry.outputArnValid]}
    else s
  | none => s

/-- validate_terraform_outputs: when the outputs file is absent it returns
True immediately after a warning; otherwise it compares id, name and arn and
returns whether the cumulative failed list is empty. -/
def validate_terraform_outputs (security_group_id : String) (sg : SgDetails) (s : VResults)
    (outputs : Option TfOutputs) : VResults × Bool :=
  match outputs with
  | none => ({s with warnings := s.warnings ++ [Entry.outputsFileNotFound]}, true)
  | some o =>
    let s3 := vtoArn security_group_id o (vtoName sg o (vtoId security_group_id o s))
    (s3, s3.failed.isEmpty)

/-- run_all_validations: fetch (modelled by fetchOk), then the six
validation steps threading the single validation_results dict; the verdict
is the conjunction of the six step results. -/
def run_all_validations (security_group_id : String) (fetchOk : Bool) (sg : SgDetails)
    (cfg : ExpectedConfig) (outputs : Option TfOutputs) : VResults × Bool :=
  let s0 : VResults := ⟨[], [], []⟩
  if !fetchOk then (s0, false)
  else
    let r1 := validate_basic_properties s0 cfg sg
    let r2 := validate_ingress_rules r1.1 cfg.ingress_rules sg.ipPermissions
    let r3 := validate_egress_rules r2.1 cfg.egress_rules sg.ipPermissionsEgress
    let r4 := validate_tags r3.1 cfg.tags sg.tags
    let r5 := validate_security_best_practices r4.1 sg
    let r6 := validate_terraform_outputs security_group_id sg r5.1 outputs
    (r6.1, r1.2 && r2.2 && r3.2 && r4.2 && r5.2 && r6.2)

/-- The scenario observed rule tcp 443-443 from 0.0.0.0/0. -/
def rule443 : AwsRule := ⟨some "tcp", some 443, some 443, ["0.0.0.0/0"]⟩

/-- The scenario observed rule tcp 22-22 from 0.0.0.0/0. -/
def rule22 : AwsRule := ⟨some "tcp", some 22, some 22, ["0.0.0.0/0"]⟩

/-- The scenario expected rule tcp 443-443 with sources 0.0.0.0/0. -/
def expected443 : ExpectedRule := ⟨some "tcp", some 443, some 443, some ["0.0.0.0/0"], none⟩

/-- Observed state for the 443-plus-22 scenario. -/
def scenarioSg : SgDetails := ⟨none, "test-sg", none, [rule443, rule22], [], []⟩

/-- Expected configuration for the 443-plus-22 scenario. -/
def scenarioCfg : ExpectedConfig := ⟨none, none, none, [expected443], [], []⟩

/-- Observed state for the tag-mismatch scenario: Environment=staging. -/
def tagSg : SgDetails := ⟨none, "test-sg", none, [], [], [("Environment", "staging")]⟩

/-- Expected configuration for the tag-mismatch scenario: Environment=prod. -/
def tagCfg : ExpectedConfig := ⟨none, none, none, [], [], [("Environment", "prod")]⟩

end PostDeploy

namespace ConfigVal

/-- One entry of SecurityGroupConfigValidator's errors/warnings lists; each
constructor stands for one appended message string with its interpolated
data. -/
inductive CEntry
  | missingFields (ruleNum : Nat) (missing : List String)
  | portRangeInverted (ruleNum : Nat) (fromPort toPort : Int)
  | unusualProtocol (ruleNum : Nat) (protocol : String)
  | portOpenToInternet (ruleNum : Nat) (port : Int)
  | noDescription (ruleNum : Nat)
  | egressMissingFields (ruleNum : Nat) (missing : List String)
  | noEgressRules
deriving DecidableEq

/-- The validator's errors and warnings lists. -/
structure CResults where
  errors : List CEntry
  warnings : List CEntry
deriving DecidableEq

/-- The required-field scan: names of the required fields absent from the
rule dict, in the source's fixed order. -/
def required_fields_missing (e : ExpectedRule) : List String :=
  (if e.from_port.isNone then ["from_port"] else []) ++
  (if e.to_port.isNone then ["to_port"] else []) ++
  (if e.protocol.isNone then ["protocol"] else []) ++
  (if e.cidr_blocks.isNone then ["cidr_blocks"] else [])

/-- The valid_protocols list of the configuration validator. -/
def valid_protocols : List String := ["tcp", "udp", "icmp", "-1"]

/-- The sensitive_ports list of the configuration validator (a shorter list
than the post-deployment one). -/
def cfg_sensitive_ports : List Int := [22, 3389, 3306, 5432, 27017]

/-- The loop adding one warning per sensitive port inside the rule's port
range, run only when 0.0.0.0/0 is among the cidr_blocks. -/
def cfgPortScan (ruleNum : Nat) (fp tp : Int) (s : CResults) : CResults :=
  cfg_sensitive_ports.foldl
    (fun acc port =>
      if fp ≤ port ∧ port ≤ tp then
        {acc with warnings := acc.warnings ++ [CEntry.portOpenToInternet ruleNum port]}
      else acc) s

/-- The description check: a falsy (absent or empty) description is a
warning. -/
def cfgDescriptionCheck (ruleNum : Nat) (d : Option String) (s : CResults) : CResults :=
  match d with
  | some d' =>
    if d' = "" then {s with warnings := s.warnings ++ [CEntry.noDescription ruleNum]}
    else s
  | none => {s with warnings := s.warnings ++ [CEntry.noDescription ruleNum]}

/-- Processing of one (index, rule) pair in the configuration validator's
validate_ingress_rules: missing required fields are an error ending the
iteration; an inverted port range is an error; an unrecognized protocol is
only a warning; sensitive ports open to 0.0.0.0/0 and a missing description
are warnings. -/
def cfgIngressRuleStep (s : CResults) (ie : Nat × ExpectedRule) : CResults :=
  let ruleNum := ie.1 + 1
  let missing := required_fields_missing ie.2
  if missing ≠ [] then {s with errors := s.errors ++ [CEntry.missingFields ruleNum missing]}
  else
    match ie.2.from_port, ie.2.to_port, ie.2.protocol, ie.2.cidr_blocks with
    | some fp, some tp, some proto, some cbs =>
      let s1 :=
        if fp > tp then {s with errors := s.errors ++ [CEntry.portRangeInverted ruleNum fp tp]}
        else s
      let s2 :=
        if proto ∈ valid_protocols then s1
        else {s1 with warnings := s1.warnings ++ [CEntry.unusualProtocol ruleNum proto]}
      let s3 := if "0.0.0.0/0" ∈ cbs then cfgPortScan ruleNum fp tp s2 else s2
      cfgDescriptionCheck ruleNum ie.2.description s3
    | _, _, _, _ => s

/-- The configuration validator's validate_ingress_rules: an empty rule list
returns True immediately; otherwise each rule is checked and the result is
whether the cumulative errors list is empty. -/
def validate_ingress_rules (s : CResults) (rules : List ExpectedRule) : CResults × Bool :=
  if rules.isEmpty then (s, true)
  else
    let s2 := rules.enum.foldl cfgIngressRuleStep s
    (s2, s2.errors.isEmpty)

/-- A rule whose protocol gre is not among valid_protocols but whose other
fields are all present and well formed. -/
def greRule : ExpectedRule := ⟨some "gre", some 80, some 80, some ["10.0.0.0/8"], some "x"⟩

end ConfigVal

namespace Orchestrator

/-- The status strings of one phase entry of TestRunner.results. -/
inductive PhaseStatus
  | pending
  | passed
  | failed
  | skipped
deriving DecidableEq

/-- One entry of TestRunner.results: a status plus detail strings. -/
structure PhaseResult where
  status : PhaseStatus
  details : List String
deriving DecidableEq

/-- The four fixed keys of TestRunner.results. -/
structure RunnerResults where
  pre_deployment : PhaseResult
  terraform_test : PhaseResult
  integration_test : PhaseResult
  post_deployment : PhaseResult
deriving DecidableEq

/-- The mutable TestRunner state threaded through the phases: the results
dict and the security_group_id attribute set by phase 3. -/
structure RunnerState where
  results : RunnerResults
  security_group_id : Option String
deriving DecidableEq

/-- The recognized configuration options consulted by the phases and the
orchestration loop (each .get in the source defaults the absent key, so the
config is modelled as a total record). -/
structure RunConfig where
  run_pre_deployment : Bool
  run_terraform_tests : Bool
  run_integration_tests : Bool
  run_post_deployment : Bool
  cleanup : Bool
  fail_fast : Bool
deriving DecidableEq

/-- Observable external actions of a run: execution of the phase at a list
index, and one terraform destroy invocation. -/
inductive Event
  | phase (idx : Nat)
  | teardown
deriving DecidableEq

/-- A phase body: from the runner state, the state as the phase left it plus
some result (some b = returned b, none = raised an exception at that
point). -/
abbrev Phase := RunnerState → RunnerState × Option Bool

/-- Replace the pre_deployment entry. -/
def setPre (st : RunnerState) (p : PhaseResult) : RunnerState :=
  {st with results := {st.results with pre_deployment := p}}

/-- Replace the terraform_test entry. -/
def setTf (st : RunnerState) (p : PhaseResult) : RunnerState :=
  {st with results := {st.results with terraform_test := p}}

/-- Replace the integration_test entry. -/
def setIntegration (st : RunnerState) (p : PhaseResult) : RunnerState :=
  {st with results := {st.results with integration_test := p}}

/-- Replace the post_deployment entry. -/
def setPost (st : RunnerState) (p : PhaseResult) : RunnerState :=
  {st with results := {st.results with post_deployment := p}}

/-- External outcome of phase 1: the exit code of the validation script. -/
structure Phase1Env where
  validateExit : Int
deriving DecidableEq

/-- External outcome of phase 2: the tests directory listing (None means
os.listdir raised) and the terraform test exit code. -/
structure Phase2Env where
  testsDirList : Option (List String)
  testExit : Int
deriving DecidableEq

/-- External outcomes of phase 3: the four terraform exit codes, the parsed
output value (outer None means json.loads raised; the inner option is the
security_group_id value), and the failed count of the pytest report (None
means the report could not be read, which the source swallows). -/
structure Phase3Env where
  initExit : Int
  planExit : Int
  applyExit : Int
  outputExit : Int
  outputsJson : Option (Option String)
  reportFailed : Option Nat
deriving DecidableEq

/-- External outcome of phase 4: the exit code of the post-deployment
validation script. -/
structure Phase4Env where
  postExit : Int
deriving DecidableEq

/-- Phase 1 (pre-deployment validation). -/
def phase_1_pre_deployment_validation (cfg : RunConfig) (env : Phase1Env) : Phase := fun st =>
  if !cfg.run_pre_deployment then
    (setPre st {st.results.pre_deployment with status := .skipped}, some true)
  else if env.validateExit = 0 then
    (setPre st ⟨.passed, st.results.pre_deployment.details ++ ["All validations passed"]⟩,
      some true)
  else
    (setPre st ⟨.failed, st.results.pre_deployment.details ++ ["Validation failed"]⟩,
      some false)

/-- Phase 2 (terraform native tests); a raising os.listdir leaves the state
untouched and escapes as an exception. -/
def phase_2_terraform_native_tests (cfg : RunConfig) (env : Phase2Env) : Phase := fun st =>
  if !cfg.run_terraform_tests then
    (setTf st {st.results.terraform_test with status := .skipped}, some true)
  else
    match env.testsDirList with
    | none => (st, none)
    | some files =>
      let test_files := files.filter (fun f => f.endsWith ".tftest.hcl")
      if test_files.isEmpty then
        (setTf st {st.results.terraform_test with status := .skipped}, some true)
      else if env.testExit = 0 then
        (setTf st ⟨.passed, st.results.terraform_test.details ++ ["All Terraform tests passed"]⟩,
          some true)
      else
        (setTf st ⟨.failed, st.results.terraform_test.details ++ ["Terraform tests failed"]⟩,
          some false)

/-- Phase 3 (deploy and integration tests).  Early terraform failures set
status failed with no detail; a json.loads failure after a successful
terraform output raises with the state untouched; an unreadable pytest
report is swallowed and the phase passes. -/
def phase_3_deploy_and_integration_test (cfg : RunConfig) (env : Phase3Env) : Phase := fun st =>
  if !cfg.run_integration_tests then
    (setIntegration st {st.results.integration_test with status := .skipped}, some true)
  else if env.initExit ≠ 0 then
    (setIntegration st {st.results.integration_test with status := .failed}, some false)
  else if env.planExit ≠ 0 then
    (setIntegration st {st.results.integration_test with status := .failed}, some false)
  else if env.applyExit ≠ 0 then
    (setIntegration st {st.results.integration_test with status := .failed}, some false)
  else
    let st2opt : Option RunnerState :=
      if env.outputExit = 0 then
        env.outputsJson.map (fun v => {st with security_group_id := v})
      else some st
    match st2opt with
    | none => (st, none)
    | some st2 =>
      match env.reportFailed with
      | some n =>
        if n > 0 then
          (setIntegration st2
            ⟨.failed, st2.results.integration_test.details ++ [toString n ++ " test(s) failed"]⟩,
            some false)
        else
          (setIntegration st2
            ⟨.passed, st2.results.integration_test.details ++ ["All integration tests passed"]⟩,
            some true)
      | none =>
        (setIntegration st2
          ⟨.passed, st2.results.integration_test.details ++ ["All integration tests passed"]⟩,
          some true)

/-- Phase 4 (post-deployment validation): skipped when disabled or when no
truthy security_group_id was recorded by phase 3. -/
def phase_4_post_deployment_validation (cfg : RunConfig) (env : Phase4Env) : Phase := fun st =>
  if !cfg.run_post_deployment then
    (setPost st {st.results.post_deployment with status := .skipped}, some true)
  else
    match st.security_group_id with
    | none => (setPost st {st.results.post_deployment with status := .skipped}, some true)
    | some sgid =>
      if sgid = "" then
        (setPost st {st.results.post_deployment with status := .skipped}, some true)
      else if env.postExit = 0 then
        (setPost st
          ⟨.passed, st.results.post_deployment.details ++ ["Post-deployment validation passed"]⟩,
          some true)
      else
        (setPost st
          ⟨.failed, st.results.post_deployment.details ++ ["Post-deployment validation failed"]⟩,
          some false)

/-- The phase loop of run_all_phases: execute phases in order, recording one
Event.phase per executed phase.  A returned False and a raised exception are
treated identically in the source (all_passed is cleared and, under
fail-fast, the loop breaks); exceptions are caught here and never alter the
phase's recorded result, so only whether the phase returned True matters. -/
def runPhasesLoop (ff : Bool) : Nat → List Phase → RunnerState → Bool → RunnerState × Bool × List Event
  | _, [], st, all_passed => (st, all_passed, [])
  | idx, f :: rest, st, all_passed =>
    let fr := f st
    if fr.2 = some true then
      let r := runPhasesLoop ff (idx + 1) rest fr.1 all_passed
      (r.1, r.2.1, Event.phase idx :: r.2.2)
    else if ff then (fr.1, false, [Event.phase idx])
    else
      let r := runPhasesLoop ff (idx + 1) rest fr.1 false
      (r.1, r.2.1, Event.phase idx :: r.2.2)

/-- The cleanup method: disabled config short-circuits; otherwise one
terraform destroy whose success is destroyOk.  It touches no phase result. -/
def cleanup (cfg : RunConfig) (destroyOk : Bool) : List Event × Bool :=
  if !cfg.cleanup then ([], true)
  else ([Event.teardown], destroyOk)

/-- run_all_phases: the phase loop, then — guarded by the cleanup config
flag — one call of cleanup whose result and exceptions are ignored, then the
final summary (a pure print over the returned state). -/
def run_all_phases (cfg : RunConfig) (phases : List Phase) (destroyOk : Bool) (st : RunnerState) :
    RunnerState × Bool × List Event :=
  let r := runPhasesLoop cfg.fail_fast 0 phases st true
  let ctr := if cfg.cleanup then (cleanup cfg destroyOk).1 else []
  (r.1, r.2.1, r.2.2 ++ ctr)

/-- All external outcomes of one run. -/
structure TestEnv where
  p1 : Phase1Env
  p2 : Phase2Env
  p3 : Phase3Env
  p4 : Phase4Env
  destroyOk : Bool
deriving DecidableEq

/-- run_all_phases applied to the concrete list of the four phases of the
source. -/
def runAllTests (cfg : RunConfig) (env : TestEnv) (st : RunnerState) :
    RunnerState × Bool × List Event :=
  run_all_phases cfg
    [phase_1_pre_deployment_validation cfg env.p1,
     phase_2_terraform_native_tests cfg env.p2,
     phase_3_deploy_and_integration_test cfg env.p3,
     phase_4_post_deployment_validation cfg env.p4]
    env.destroyOk st

/-- TestRunner.__init__: all four phases pending with no details, no
security group id. -/
def initialRunnerState : RunnerState :=
  { results :=
      { pre_deployment := {status := .pending, details := []},
        terraform_test := {status := .pending, details := []},
        integration_test := {status := .pending, details := []},
        post_deployment := {status := .pending, details := []} },
    security_group_id := none }

/-- main: sys.exit(0 if success else 1). -/
def mainExitCode (success : Bool) : Nat := if success then 0 else 1

/-- The default configuration of load_config. -/
def cfgDefault : RunConfig := ⟨true, true, true, true, true, false⟩

/-- The default configuration with fail_fast enabled. -/
def cfgFailFast : RunConfig := ⟨true, true, true, true, true, true⟩

/-- An environment in which every external call succeeds but the terraform
output JSON is malformed, so json.loads raises inside phase 3. -/
def envJsonRaise : TestEnv := ⟨⟨0⟩, ⟨some [], 0⟩, ⟨0, 0, 0, 0, none, some 0⟩, ⟨0⟩, true⟩

/-- An environment in which the phase-1 validation script exits nonzero. -/
def envPhase1Fails : TestEnv :=
  ⟨⟨1⟩, ⟨some [], 0⟩, ⟨0, 0, 0, 0, some (some "sg-123"), some 0⟩, ⟨0⟩, true⟩

end Orchestrator

/-!
Theorems.  The generic foldl lemmas below are shared by the proofs about the
validator folds.
-/

/-- Generic foldl invariant: a property preserved by every step of the fold
holds of the result when it holds of the initial accumulator. -/
theorem foldl_invariant {α σ : Type _} (f : σ → α → σ) (P : σ → Prop) :
    ∀ (l : List α) (s : σ), (∀ s' a, a ∈ l → P s' → P (f s' a)) → P s → P (l.foldl f s)
  | [], _, _, hs => hs
  | a :: t, s, hpres, hs =>
    foldl_invariant f P t (f s a)
      (fun s' b hb => hpres s' b (List.mem_cons_of_mem _ hb))
      (hpres s a (List.mem_cons_self _ _) hs)

/-- Generic foldl membership: if processing a particular element establishes a
property from any accumulator, and every step preserves the property, then
the property holds of the fold over any list containing that element. -/
theorem foldl_mem_of_mem {α σ : Type _} (f : σ → α → σ) (P : σ → Prop) (x : α) :
    ∀ (l : List α) (s : σ), x ∈ l → (∀ s' a, a ∈ l → P s' → P (f s' a)) →
      (∀ s', P (f s' x)) → P (l.foldl f s)
  | [], _, hx, _, _ => absurd hx (List.not_mem_nil x)
  | a :: t, s, hx, hpres, hadd => by
    rcases List.mem_cons.mp hx with rfl | hx'
    · exact foldl_invariant f P t (f s x)
        (fun s' b hb => hpres s' b (List.mem_cons_of_mem _ hb)) (hadd s)
    · exact foldl_mem_of_mem f P x t (f s a) hx'
        (fun s' b hb => hpres s' b (List.mem_cons_of_mem _ hb)) hadd

/-- Appending to a nonempty list keeps it nonempty. -/
theorem isEmpty_append_of_ne_nil {α : Type _} {xs : List α} (t : List α) (h : xs ≠ []) :
    (xs ++ t).isEmpty = false := by
  cases xs with
  | nil => exact absurd rfl h
  | cons a l => rfl

/-- Boolean any is invariant under permutation of the list. -/
theorem perm_any {α : Type _} (p : α → Bool) {l1 l2 : List α} (h : l1.Perm l2) :
    l1.any p = l2.any p := by
  apply Bool.eq_iff_iff.mpr
  simp only [List.any_eq_true]
  constructor
  · rintro ⟨x, hx, hpx⟩; exact ⟨x, h.mem_iff.mp hx, hpx⟩
  · rintro ⟨x, hx, hpx⟩; exact ⟨x, h.mem_iff.mpr hx, hpx⟩

namespace PostDeploy

/-- setEqStr is exactly equality of the membership predicates. -/
theorem setEqStr_iff (xs ys : List String) :
    setEqStr xs ys = true ↔ ∀ c, c ∈ xs ↔ c ∈ ys := by
  unfold setEqStr
  simp only [Bool.and_eq_true, List.all_eq_true]
  constructor
  · rintro ⟨h1, h2⟩ c
    exact ⟨fun hc => List.elem_iff.mp (h1 c hc), fun hc => List.elem_iff.mp (h2 c hc)⟩
  · intro h
    exact ⟨fun c hc => List.elem_iff.mpr ((h c).mp hc),
      fun c hc => List.elem_iff.mpr ((h c).mpr hc)⟩

/-- Unfolding of the per-rule match when the expected rule carries
cidr_blocks. -/
theorem matches_ingress_rule_iff (e : ExpectedRule) (cbs : List String)
    (hc : e.cidr_blocks = some cbs) (r : AwsRule) :
    matches_ingress_rule e r = true ↔
      (r.ipProtocol = e.protocol ∧ r.fromPort = e.from_port ∧ r.toPort = e.to_port ∧
        ∀ c, c ∈ r.ipRanges ↔ c ∈ cbs) := by
  unfold matches_ingress_rule
  rw [hc]
  by_cases h1 : r.ipProtocol = e.protocol
  · by_cases h2 : r.fromPort = e.from_port
    · by_cases h3 : r.toPort = e.to_port
      · simp [h1, h2, h3, setEqStr_iff]
      · simp [h1, h2, h3]
    · simp [h1, h2]
  · simp [h1]

/-- The scan is an existential over the observed rules. -/
theorem find_matching_ingress_rule_iff (e : ExpectedRule) (actual : List AwsRule) :
    find_matching_ingress_rule e actual = true ↔
      ∃ r ∈ actual, matches_ingress_rule e r = true := by
  unfold find_matching_ingress_rule
  exact List.any_eq_true

/-- The ingress fold step never removes a passed entry. -/
theorem ingressRuleStep_passed_mono (actual : List AwsRule) (x : Entry) (s : VResults)
    (ie : Nat × ExpectedRule) (hx : x ∈ s.passed) : x ∈ (ingressRuleStep actual s ie).passed := by
  unfold ingressRuleStep
  split
  · exact List.mem_append_left _ hx
  · exact hx

/-- The failed list after the ingress fold: the initial failures followed by
one not-found entry per unmatched expected rule, in input order. -/
theorem ingress_foldl_failed (actual : List AwsRule) :
    ∀ (l : List (Nat × ExpectedRule)) (s : VResults),
      (l.foldl (ingressRuleStep actual) s).failed =
        s.failed ++ (l.filter (fun ie => !find_matching_ingress_rule ie.2 actual)).map
          (fun ie => Entry.ingressRuleNotFound (ie.1 + 1) ie.2)
  | [], s => by simp
  | ie :: t, s => by
    rw [List.foldl_cons, ingress_foldl_failed actual t]
    by_cases h : find_matching_ingress_rule ie.2 actual = true
    · simp [ingressRuleStep, h]
    · simp only [Bool.not_eq_true] at h
      simp [ingressRuleStep, h]

/-- The warnings list is untouched by the ingress fold. -/
theorem ingress_foldl_warnings (actual : List AwsRule) :
    ∀ (l : List (Nat × ExpectedRule)) (s : VResults),
      (l.foldl (ingressRuleStep actual) s).warnings = s.warnings
  | [], _ => rfl
  | ie :: t, s => by
    rw [List.foldl_cons, ingress_foldl_warnings actual t]
    unfold ingressRuleStep
    split <;> rfl

/-- The failed list of validate_ingress_rules. -/
theorem validate_ingress_rules_failed (s : VResults) (exps : List ExpectedRule)
    (actual : List AwsRule) :
    (validate_ingress_rules s exps actual).1.failed =
      s.failed ++ (exps.enum.filter (fun ie => !find_matching_ingress_rule ie.2 actual)).map
        (fun ie => Entry.ingressRuleNotFound (ie.1 + 1) ie.2) := by
  unfold validate_ingress_rules
  split <;> simp [ingress_foldl_failed]

/-- Claim C6: an expected rule (carrying cidr_blocks) is reported found
exactly when some observed rule has the same protocol, the same fromPort and
toPort, and the same source set (order and duplicates immaterial); the
expected rule's description never influences the match; a found rule yields
a passed entry and an unmatched one a failed entry carrying the rule.
Matching is a bare existence test, so several expected rules may match the
same observed rule. -/
theorem c6_ingress_rule_equivalence (e : ExpectedRule) (cbs : List String)
    (actual : List AwsRule) (hc : e.cidr_blocks = some cbs) :
    (find_matching_ingress_rule e actual = true ↔
      ∃ r ∈ actual, r.ipProtocol = e.protocol ∧ r.fromPort = e.from_port ∧
        r.toPort = e.to_port ∧ (∀ c, c ∈ r.ipRanges ↔ c ∈ cbs)) ∧
    (∀ d, find_matching_ingress_rule {e with description := d} actual =
        find_matching_ingress_rule e actual) ∧
    (∀ (s : VResults) (exps : List ExpectedRule) (i : Nat) (e' : ExpectedRule),
      (i, e') ∈ exps.enum →
      (find_matching_ingress_rule e' actual = true →
        Entry.ingressRuleFound (i + 1) e' ∈ (validate_ingress_rules s exps actual).1.passed) ∧
      (find_matching_ingress_rule e' actual = false →
        Entry.ingressRuleNotFound (i + 1) e' ∈
          (validate_ingress_rules s exps actual).1.failed)) := by
  refine ⟨?_, ?_, ?_⟩
  · rw [find_matching_ingress_rule_iff]
    constructor
    · rintro ⟨r, hr, hm⟩
      exact ⟨r, hr, (matches_ingress_rule_iff e cbs hc r).mp hm⟩
    · rintro ⟨r, hr, hm⟩
      exact ⟨r, hr, (matches_ingress_rule_iff e cbs hc r).mpr hm⟩
  · intro d
    rfl
  · intro s exps i e' hmem
    constructor
    · intro hfind
      have hmem2 : Entry.ingressRuleFound (i + 1) e' ∈
          (exps.enum.foldl (ingressRuleStep actual) s).passed := by
        refine foldl_mem_of_mem (ingressRuleStep actual)
          (fun st => Entry.ingressRuleFound (i + 1) e' ∈ st.passed) (i, e') exps.enum s hmem
          (fun s' a _ h => ingressRuleStep_passed_mono actual _ s' a h) (fun s' => ?_)
        simp [ingressRuleStep, hfind]
      unfold validate_ingress_rules
      split <;> exact hmem2
    · intro hfind
      rw [validate_ingress_rules_failed]
      refine List.mem_append_right _ (List.mem_map_of_mem _ (List.mem_filter.mpr ⟨hmem, ?_⟩))
      simp [hfind]

/-- Witness for C6 at the scenario rule: the hypothesis holds at expected443
and the 443 rule is found. -/
theorem c6_ingress_rule_equivalence_witness :
    expected443.cidr_blocks = some ["0.0.0.0/0"] ∧
    find_matching_ingress_rule expected443 [rule443] = true :=
  ⟨rfl, (c6_ingress_rule_equivalence expected443 ["0.0.0.0/0"] [rule443] rfl).1.mpr
    ⟨rule443, by decide, by decide, by decide, by decide, fun _ => Iff.rfl⟩⟩

/-- Folding with the scan over one observed list equals folding over another
whenever the two scans agree on every expected rule. -/
theorem ingress_foldl_congr (act act' : List AwsRule)
    (h : ∀ e, find_matching_ingress_rule e act = find_matching_ingress_rule e act') :
    ∀ (l : List (Nat × ExpectedRule)) (s : VResults),
      l.foldl (ingressRuleStep act) s = l.foldl (ingressRuleStep act') s
  | [], _ => rfl
  | ie :: t, s => by
    rw [List.foldl_cons, List.foldl_cons,
      show ingressRuleStep act s ie = ingressRuleStep act' s ie by
        simp [ingressRuleStep, h ie.2]]
    exact ingress_foldl_congr act act' h t _

/-- Egress analogue of the fold congruence. -/
theorem egress_foldl_congr (act act' : List AwsRule)
    (h : ∀ e, find_matching_egress_rule e act = find_matching_egress_rule e act') :
    ∀ (l : List (Nat × ExpectedRule)) (s : VResults),
      l.foldl (egressRuleStep act) s = l.foldl (egressRuleStep act') s
  | [], _ => rfl
  | ie :: t, s => by
    rw [List.foldl_cons, List.foldl_cons,
      show egressRuleStep act s ie = egressRuleStep act' s ie by
        simp [egressRuleStep, h ie.2]]
    exact egress_foldl_congr act act' h t _

/-- Claim C9: permuting the observed rules changes nothing in the outcome of
validate_ingress_rules or validate_egress_rules — the recorded passed,
failed and warnings entries and the boolean results are identical, hence so
is every derived multiset of outcome kinds. -/
theorem c9_observed_order_irrelevant (s : VResults) (exps : List ExpectedRule)
    (act act' : List AwsRule) (hp : act.Perm act') :
    validate_ingress_rules s exps act = validate_ingress_rules s exps act' ∧
    validate_egress_rules s exps act = validate_egress_rules s exps act' := by
  have hfind : ∀ e, find_matching_ingress_rule e act = find_matching_ingress_rule e act' :=
    fun e => perm_any (matches_ingress_rule e) hp
  have hfindE : ∀ e, find_matching_egress_rule e act = find_matching_egress_rule e act' :=
    fun e => perm_any (matches_egress_rule e) hp
  constructor
  · unfold validate_ingress_rules
    rw [ingress_foldl_congr act act' hfind, hp.length_eq]
  · unfold validate_egress_rules
    rw [egress_foldl_congr act act' hfindE]

/-- Witness for C9: swapping the two observed scenario rules. -/
theorem c9_observed_order_irrelevant_witness :
    validate_ingress_rules ⟨[], [], []⟩ [expected443] [rule443, rule22] =
      validate_ingress_rules ⟨[], [], []⟩ [expected443] [rule22, rule443] :=
  (c9_observed_order_irrelevant ⟨[], [], []⟩ [expected443] [rule443, rule22] [rule22, rule443]
    (by decide)).1

/-- Counterexample to C7 as stated: one observed rule that is equivalent to
no expected rule, yet the run records no entry at all about it — in
particular no Unexpected outcome (the warnings list stays empty, since the
observed count does not exceed the expected count). -/
theorem c7_counterexample :
    matches_ingress_rule ⟨some "tcp", some 80, some 80, some ["10.0.0.0/8"], none⟩
        ⟨some "tcp", some 443, some 443, ["0.0.0.0/0"]⟩ = false ∧
    (validate_ingress_rules ⟨[], [], []⟩
        [⟨some "tcp", some 80, some 80, some ["10.0.0.0/8"], none⟩]
        [⟨some "tcp", some 443, some 443, ["0.0.0.0/0"]⟩]).1.warnings = [] := by decide

/-- Claim C7 (amended): extra observed ingress rules are reported only in
aggregate — when the observed count exceeds the expected count a single
warning carrying the difference is recorded, and otherwise the warnings list
is untouched; individual unmatched observed rules are never reported.
Warnings never affect the boolean result, so appending any number of extra
observed rules to a passing run keeps it passing. -/
theorem c7_unexpected_amended (s : VResults) (exps : List ExpectedRule) (act : List AwsRule) :
    (act.length > exps.length →
      Entry.additionalIngressRules (act.length - exps.length) ∈
        (validate_ingress_rules s exps act).1.warnings) ∧
    (¬ act.length > exps.length →
      (validate_ingress_rules s exps act).1.warnings = s.warnings) ∧
    ((validate_ingress_rules s exps act).2 = true →
      ∀ extra, (validate_ingress_rules s exps (act ++ extra)).2 = true) := by
  refine ⟨?_, ?_, ?_⟩
  · intro h
    unfold validate_ingress_rules
    simp [h, ingress_foldl_warnings]
  · intro h
    unfold validate_ingress_rules
    simp [h, ingress_foldl_warnings]
  · intro h extra
    have h2 : (validate_ingress_rules s exps act).1.failed = [] :=
      List.isEmpty_iff.mp h
    rw [validate_ingress_rules_failed] at h2
    rcases List.append_eq_nil.mp h2 with ⟨hs, hmap⟩
    have hfilter := List.map_eq_nil_iff.mp hmap
    show (validate_ingress_rules s exps (act ++ extra)).1.failed.isEmpty = true
    rw [validate_ingress_rules_failed, hs]
    have hnil : exps.enum.filter
        (fun ie => !find_matching_ingress_rule ie.2 (act ++ extra)) = [] := by
      refine List.filter_eq_nil_iff.mpr (fun ie hie => ?_)
      have hact : find_matching_ingress_rule ie.2 act = true := by
        by_contra hne
        have hmem : ie ∈ exps.enum.filter (fun ie => !find_matching_ingress_rule ie.2 act) :=
          List.mem_filter.mpr ⟨hie, by
            simp only [Bool.not_eq_true] at hne
            simp [hne]⟩
        rw [hfilter] at hmem
        exact absurd hmem (List.not_mem_nil ie)
      have hf : find_matching_ingress_rule ie.2 (act ++ extra) = true := by
        unfold find_matching_ingress_rule at hact ⊢
        rw [List.any_append, hact]
        rfl
      simp [hf]
    rw [hnil]
    rfl

/-- Witness for C7 (amended): one extra observed rule against an empty
expectation produces the aggregate count warning. -/
theorem c7_unexpected_amended_witness :
    Entry.additionalIngressRules 1 ∈
      (validate_ingress_rules ⟨[], [], []⟩ [] [rule443]).1.warnings :=
  (c7_unexpected_amended ⟨[], [], []⟩ [] [rule443]).1 (by decide)

/-- The tag step never removes a warning. -/
theorem tagStep_warnings_mono (act : List (String × String)) (x : Entry) (s : VResults)
    (kv : String × String) (hx : x ∈ s.warnings) : x ∈ (tagStep act s kv).warnings := by
  unfold tagStep
  split
  · split
    · exact hx
    · split
      · exact List.mem_append_left _ hx
      · exact hx
  · exact hx

/-- A present, different, non-empty tag value appends exactly the differs
warning. -/
theorem tagStep_adds_differs (act : List (String × String)) (s : VResults) (k v w : String)
    (hw : tagGet act k = some w) (hne : w ≠ v) (hnempty : w ≠ "") :
    Entry.tagDiffers k v w ∈ (tagStep act s (k, v)).warnings := by
  unfold tagStep
  rw [hw]
  simp only [hne, if_false, hnempty, ne_eq, not_false_eq_true, if_true]
  exact List.mem_append_right _ (by simp)

/-- A tag resolved to a truthy value never touches the failed list. -/
theorem tagStep_failed_of_truthy (act : List (String × String)) (s : VResults)
    (kv : String × String) (w : String) (hw : tagGet act kv.1 = some w) (hnempty : w ≠ "") :
    (tagStep act s kv).failed = s.failed := by
  unfold tagStep
  rw [hw]
  by_cases hv : w = kv.2
  · simp [hv]
  · simp [hv, hnempty]

/-- The tag step can only append to the failed list. -/
theorem tagStep_failed_grows (act : List (String × String)) (s : VResults)
    (kv : String × String) : ∃ t, (tagStep act s kv).failed = s.failed ++ t := by
  unfold tagStep
  split
  · split
    · exact ⟨[], by simp⟩
    · split
      · exact ⟨[], by simp⟩
      · exact ⟨_, rfl⟩
  · exact ⟨_, rfl⟩

/-- Any fold whose step only appends to the failed list only appends to the
failed list. -/
theorem foldl_failed_grows {α : Type _} (f : VResults → α → VResults)
    (hstep : ∀ s a, ∃ t, (f s a).failed = s.failed ++ t) :
    ∀ (l : List α) (s : VResults), ∃ t, (l.foldl f s).failed = s.failed ++ t
  | [], s => ⟨[], by simp⟩
  | a :: t, s => by
    obtain ⟨u, hu⟩ := hstep s a
    obtain ⟨v, hv⟩ := foldl_failed_grows f hstep t (f s a)
    exact ⟨u ++ v, by rw [List.foldl_cons, hv, hu, List.append_assoc]⟩

/-- Counterexample to C1 as stated: with expected Environment=prod and
observed Environment=staging the whole post-deployment run succeeds — the
mismatch is recorded as a warning, not as a failure, and the verdict is not
failed. -/
theorem c1_counterexample :
    (run_all_validations "sg-123" true tagSg tagCfg none).2 = true ∧
    Entry.tagDiffers "Environment" "prod" "staging" ∈
      (run_all_validations "sg-123" true tagSg tagCfg none).1.warnings ∧
    (run_all_validations "sg-123" true tagSg tagCfg none).1.failed = [] := by decide

/-- Claim C1 (amended): an expected tag key present in the observed tags
with a different non-empty value is recorded as a differs warning; the tag
comparison returns whether the cumulative failed list is empty, and when
every expected key resolves to a non-empty observed value the failed list is
untouched — so a pure value mismatch never makes the run fail (only a
missing or empty observed value does). -/
theorem c1_tag_mismatch_amended (s : VResults) (exp act : List (String × String))
    (k v w : String) (hk : (k, v) ∈ exp) (hw : tagGet act k = some w) (hne : w ≠ v)
    (hnempty : w ≠ "") :
    Entry.tagDiffers k v w ∈ (validate_tags s exp act).1.warnings ∧
    (validate_tags s exp act).2 = (validate_tags s exp act).1.failed.isEmpty ∧
    ((∀ kv ∈ exp, ∃ w', tagGet act kv.1 = some w' ∧ w' ≠ "") →
      (validate_tags s exp act).1.failed = s.failed) := by
  refine ⟨?_, rfl, ?_⟩
  · unfold validate_tags
    exact foldl_mem_of_mem (tagStep act)
      (fun st => Entry.tagDiffers k v w ∈ st.warnings) (k, v) exp s hk
      (fun s' a _ h => tagStep_warnings_mono act _ s' a h)
      (fun s' => tagStep_adds_differs act s' k v w hw hne hnempty)
  · intro hall
    unfold validate_tags
    refine foldl_invariant (tagStep act) (fun st => st.failed = s.failed) exp s
      (fun s' kv hkv h => ?_) rfl
    obtain ⟨w', hw', hne'⟩ := hall kv hkv
    rw [tagStep_failed_of_truthy act s' kv w' hw' hne', h]

/-- Witness for C1 (amended) at the scenario tags. -/
theorem c1_tag_mismatch_amended_witness :
    Entry.tagDiffers "Environment" "prod" "staging" ∈
      (validate_tags ⟨[], [], []⟩ [("Environment", "prod")]
        [("Environment", "staging")]).1.warnings :=
  (c1_tag_mismatch_amended ⟨[], [], []⟩ [("Environment", "prod")] [("Environment", "staging")]
    "Environment" "prod" "staging" (by decide) (by decide) (by decide) (by decide)).1

/-- The innermost best-practices loop never removes a warning. -/
theorem bpRangeStep_warnings_mono (svc : String) (p : Int) (x : Entry) (st : VResults × Bool)
    (c : String) (hx : x ∈ st.1.warnings) : x ∈ (bpRangeStep svc p st c).1.warnings := by
  unfold bpRangeStep
  split
  · exact List.mem_append_left _ hx
  · exact hx

/-- The per-port best-practices loop never removes a warning. -/
theorem bpPortStep_warnings_mono (r : AwsRule) (fp tp : Int) (x : Entry) (st : VResults × Bool)
    (ps : Int × String) (hx : x ∈ st.1.warnings) : x ∈ (bpPortStep r fp tp st ps).1.warnings := by
  unfold bpPortStep
  split
  · exact foldl_invariant (bpRangeStep ps.2 ps.1) (fun st' => x ∈ st'.1.warnings) r.ipRanges st
      (fun s' a _ h => bpRangeStep_warnings_mono ps.2 ps.1 x s' a h) hx
  · exact hx

/-- The per-rule best-practices loop never removes a warning. -/
theorem bpRuleStep_warnings_mono (x : Entry) (st : VResults × Bool) (r : AwsRule)
    (hx : x ∈ st.1.warnings) : x ∈ (bpRuleStep st r).1.warnings := by
  unfold bpRuleStep
  split
  · split
    · exact foldl_invariant (bpPortStep _ _ _) (fun st' => x ∈ st'.1.warnings) sensitive_ports st
        (fun s' a _ h => bpPortStep_warnings_mono _ _ _ x s' a h) hx
    · exact hx
  · exact hx

/-- The all-protocol loops never remove a warning. -/
theorem bpAllProtoRangeStep_warnings_mono (x : Entry) (st : VResults × Bool) (c : String)
    (hx : x ∈ st.1.warnings) : x ∈ (bpAllProtoRangeStep st c).1.warnings := by
  unfold bpAllProtoRangeStep
  split
  · exact List.mem_append_left _ hx
  · exact hx

/-- The outer all-protocol loop never removes a warning. -/
theorem bpAllProtoStep_warnings_mono (x : Entry) (st : VResults × Bool) (r : AwsRule)
    (hx : x ∈ st.1.warnings) : x ∈ (bpAllProtoStep st r).1.warnings := by
  unfold bpAllProtoStep
  split
  · exact foldl_invariant bpAllProtoRangeStep (fun st' => x ∈ st'.1.warnings) r.ipRanges st
      (fun s' a _ h => bpAllProtoRangeStep_warnings_mono x s' a h) hx
  · exact hx

/-- Processing the unrestricted source appends the sensitive-port warning. -/
theorem bpRangeStep_adds (svc : String) (p : Int) (st : VResults × Bool) :
    Entry.sensitivePortOpen svc p ∈ (bpRangeStep svc p st "0.0.0.0/0").1.warnings := by
  unfold bpRangeStep
  rw [if_pos rfl]
  exact List.mem_append_right _ (by simp)

/-- A sensitive port inside the rule's range with an unrestricted source
yields its warning. -/
theorem bpPortStep_adds (r : AwsRule) (fp tp : Int) (st : VResults × Bool) (port : Int)
    (svc : String) (h0 : "0.0.0.0/0" ∈ r.ipRanges) (h1 : fp ≤ port) (h2 : port ≤ tp) :
    Entry.sensitivePortOpen svc port ∈ (bpPortStep r fp tp st (port, svc)).1.warnings := by
  unfold bpPortStep
  rw [if_pos ⟨h1, h2⟩]
  exact foldl_mem_of_mem (bpRangeStep svc port)
    (fun st' => Entry.sensitivePortOpen svc port ∈ st'.1.warnings) "0.0.0.0/0" r.ipRanges st h0
    (fun s' a _ h => bpRangeStep_warnings_mono svc port _ s' a h)
    (fun s' => bpRangeStep_adds svc port s')

/-- A rule with truthy ports exposing a sensitive port to the world yields
its warning. -/
theorem bpRuleStep_adds (st : VResults × Bool) (r : AwsRule) (fp tp port : Int) (svc : String)
    (hfp : r.fromPort = some fp) (htp : r.toPort = some tp) (hfp0 : fp ≠ 0) (htp0 : tp ≠ 0)
    (hps : (port, svc) ∈ sensitive_ports) (h1 : fp ≤ port) (h2 : port ≤ tp)
    (h0 : "0.0.0.0/0" ∈ r.ipRanges) :
    Entry.sensitivePortOpen svc port ∈ (bpRuleStep st r).1.warnings := by
  obtain ⟨prot, fpOpt, tpOpt, ranges⟩ := r
  simp only at hfp htp h0
  subst hfp htp
  unfold bpRuleStep
  simp only
  rw [if_pos ⟨hfp0, htp0⟩]
  exact foldl_mem_of_mem (bpPortStep ⟨prot, some fp, some tp, ranges⟩ fp tp)
    (fun st' => Entry.sensitivePortOpen svc port ∈ st'.1.warnings) (port, svc)
    sensitive_ports st hps
    (fun s' a _ h => bpPortStep_warnings_mono _ _ _ _ s' a h)
    (fun s' => bpPortStep_adds ⟨prot, some fp, some tp, ranges⟩ fp tp s' port svc h0 h1 h2)

/-- Counterexample to the verdict part of C2: in the 443-plus-22 scenario
the SSH warning is recorded, yet the whole run returns True (verdict
passed), because the best-practices check always returns True. -/
theorem c2_counterexample :
    (run_all_validations "sg-123" true scenarioSg scenarioCfg none).2 = true ∧
    Entry.sensitivePortOpen "SSH" 22 ∈
      (run_all_validations "sg-123" true scenarioSg scenarioCfg none).1.warnings ∧
    Entry.ingressRuleFound 1 expected443 ∈
      (run_all_validations "sg-123" true scenarioSg scenarioCfg none).1.passed ∧
    Entry.additionalIngressRules 1 ∈
      (run_all_validations "sg-123" true scenarioSg scenarioCfg none).1.warnings := by decide

/-- Claim C2 (amended): every observed ingress rule with truthy (present and
non-zero) ports whose range includes a default sensitive port and whose
sources include 0.0.0.0/0 is flagged — the service/port warning is recorded;
but the check itself is never error-severity: validate_security_best_practices
returns True unconditionally, so such a finding alone never fails the run. -/
theorem c2_sensitive_port_amended (s : VResults) (sg : SgDetails) (r : AwsRule)
    (fp tp port : Int) (svc : String)
    (hr : r ∈ sg.ipPermissions) (hfp : r.fromPort = some fp) (htp : r.toPort = some tp)
    (hfp0 : fp ≠ 0) (htp0 : tp ≠ 0) (hps : (port, svc) ∈ sensitive_ports)
    (h1 : fp ≤ port) (h2 : port ≤ tp) (h0 : "0.0.0.0/0" ∈ r.ipRanges) :
    Entry.sensitivePortOpen svc port ∈ (validate_security_best_practices s sg).1.warnings ∧
    (validate_security_best_practices s sg).2 = true := by
  refine ⟨?_, rfl⟩
  unfold validate_security_best_practices
  have hst1 : Entry.sensitivePortOpen svc port ∈
      (sg.ipPermissions.foldl bpRuleStep (s, true)).1.warnings :=
    foldl_mem_of_mem bpRuleStep
      (fun st' => Entry.sensitivePortOpen svc port ∈ st'.1.warnings) r sg.ipPermissions
      (s, true) hr
      (fun s' a _ h => bpRuleStep_warnings_mono _ s' a h)
      (fun s' => bpRuleStep_adds s' r fp tp port svc hfp htp hfp0 htp0 hps h1 h2 h0)
  have hst2 : Entry.sensitivePortOpen svc port ∈
      (sg.ipPermissions.foldl bpAllProtoStep (sg.ipPermissions.foldl bpRuleStep (s, true))).1.warnings :=
    foldl_invariant bpAllProtoStep
      (fun st' => Entry.sensitivePortOpen svc port ∈ st'.1.warnings) sg.ipPermissions _
      (fun s' a _ h => bpAllProtoStep_warnings_mono _ s' a h) hst1
  dsimp only
  split
  · exact hst2
  · exact hst2

/-- Witness for C2 (amended) at the scenario. -/
theorem c2_sensitive_port_amended_witness :
    Entry.sensitivePortOpen "SSH" 22 ∈
      (validate_security_best_practices ⟨[], [], []⟩ scenarioSg).1.warnings ∧
    (validate_security_best_practices ⟨[], [], []⟩ scenarioSg).2 = true :=
  c2_sensitive_port_amended ⟨[], [], []⟩ scenarioSg rule22 22 22 22 "SSH"
    (by decide) (by decide) (by decide) (by decide) (by decide) (by decide)
    (by decide) (by decide) (by decide)

/-- The vbp stages only append to the failed list. -/
theorem vbpVpc_failed_grows (cfg : ExpectedConfig) (sg : SgDetails) (s : VResults) :
    ∃ t, (vbpVpc cfg sg s).failed = s.failed ++ t := by
  unfold vbpVpc
  split
  · split
    · exact ⟨[], by simp⟩
    · exact ⟨_, rfl⟩
  · exact ⟨[], by simp⟩

/-- The name stage only appends to the failed list. -/
theorem vbpName_failed_grows (cfg : ExpectedConfig) (sg : SgDetails) (s : VResults) :
    ∃ t, (vbpName cfg sg s).failed = s.failed ++ t := by
  unfold vbpName
  split
  · split
    · exact ⟨[], by simp⟩
    · exact ⟨_, rfl⟩
  · exact ⟨[], by simp⟩

/-- The description stage never touches the failed list. -/
theorem vbpDescription_failed (cfg : ExpectedConfig) (sg : SgDetails) (s : VResults) :
    (vbpDescription cfg sg s).failed = s.failed := by
  unfold vbpDescription
  split
  · split <;> rfl
  · rfl

/-- The outputs stages only append to the failed list. -/
theorem vtoId_failed_grows (sgid : String) (o : TfOutputs) (s : VResults) :
    ∃ t, (vtoId sgid o s).failed = s.failed ++ t := by
  unfold vtoId
  split
  · exact ⟨[], by simp⟩
  · exact ⟨_, rfl⟩

/-- The outputs name stage only appends to the failed list. -/
theorem vtoName_failed_grows (sg : SgDetails) (o : TfOutputs) (s : VResults) :
    ∃ t, (vtoName sg o s).failed = s.failed ++ t := by
  unfold vtoName
  split
  · exact ⟨[], by simp⟩
  · exact ⟨_, rfl⟩

/-- The arn stage never touches the failed list. -/
theorem vtoArn_failed (sgid : String) (o : TfOutputs) (s : VResults) :
    (vtoArn sgid o s).failed = s.failed := by
  unfold vtoArn
  split
  · split <;> rfl
  · rfl

/-- The egress fold step only appends to the failed list. -/
theorem egressRuleStep_failed_grows (act : List AwsRule) (s : VResults)
    (ie : Nat × ExpectedRule) : ∃ t, (egressRuleStep act s ie).failed = s.failed ++ t := by
  unfold egressRuleStep
  split
  · exact ⟨[], by simp⟩
  · exact ⟨_, rfl⟩

/-- Counterexample to C10 as stated: with a nonempty cumulative failed list
and an absent outputs file, validate_terraform_outputs still returns True,
so a validation step can return True while failures are recorded. -/
theorem c10_counterexample :
    (validate_terraform_outputs "sg-123" tagSg
      ⟨[], [Entry.tagMissing "Environment"], []⟩ none).2 = true ∧
    ([Entry.tagMissing "Environment"] : List Entry) ≠ [] := by decide

/-- Claim C10 (amended): each of basic properties, ingress, egress, tags and
— when the outputs file is present — terraform outputs returns True iff the
cumulative failed list is empty after the step; each of them only appends to
the failed list (failures are never removed); hence once the cumulative list
is nonempty every one of those steps returns False.  The one exception is
validate_terraform_outputs with the outputs file absent, which returns True
unconditionally. -/
theorem c10_cumulative_failures_amended (s : VResults) (cfg : ExpectedConfig) (sg : SgDetails)
    (expIn expEg : List ExpectedRule) (actIn actEg : List AwsRule)
    (expT actT : List (String × String)) (sgid : String) (o : TfOutputs) :
    ((validate_basic_properties s cfg sg).2 =
        (validate_basic_properties s cfg sg).1.failed.isEmpty ∧
      ∃ t, (validate_basic_properties s cfg sg).1.failed = s.failed ++ t) ∧
    ((validate_ingress_rules s expIn actIn).2 =
        (validate_ingress_rules s expIn actIn).1.failed.isEmpty ∧
      ∃ t, (validate_ingress_rules s expIn actIn).1.failed = s.failed ++ t) ∧
    ((validate_egress_rules s expEg actEg).2 =
        (validate_egress_rules s expEg actEg).1.failed.isEmpty ∧
      ∃ t, (validate_egress_rules s expEg actEg).1.failed = s.failed ++ t) ∧
    ((validate_tags s expT actT).2 = (validate_tags s expT actT).1.failed.isEmpty ∧
      ∃ t, (validate_tags s expT actT).1.failed = s.failed ++ t) ∧
    ((validate_terraform_outputs sgid sg s (some o)).2 =
        (validate_terraform_outputs sgid sg s (some o)).1.failed.isEmpty ∧
      ∃ t, (validate_terraform_outputs sgid sg s (some o)).1.failed = s.failed ++ t) ∧
    (validate_terraform_outputs sgid sg s none).2 = true ∧
    (s.failed ≠ [] →
      (validate_basic_properties s cfg sg).2 = false ∧
      (validate_ingress_rules s expIn actIn).2 = false ∧
      (validate_egress_rules s expEg actEg).2 = false ∧
      (validate_tags s expT actT).2 = false ∧
      (validate_terraform_outputs sgid sg s (some o)).2 = false) := by
  have hbasic : ∃ t, (validate_basic_properties s cfg sg).1.failed = s.failed ++ t := by
    obtain ⟨t1, h1⟩ := vbpVpc_failed_grows cfg sg s
    obtain ⟨t2, h2⟩ := vbpName_failed_grows cfg sg (vbpVpc cfg sg s)
    refine ⟨t1 ++ t2, ?_⟩
    show (vbpDescription cfg sg (vbpName cfg sg (vbpVpc cfg sg s))).failed = _
    rw [vbpDescription_failed, h2, h1, List.append_assoc]
  have hingress : ∃ t, (validate_ingress_rules s expIn actIn).1.failed = s.failed ++ t := by
    rw [validate_ingress_rules_failed]
    exact ⟨_, rfl⟩
  have hegress : ∃ t, (validate_egress_rules s expEg actEg).1.failed = s.failed ++ t := by
    unfold validate_egress_rules
    exact foldl_failed_grows (egressRuleStep actEg)
      (fun s' ie => egressRuleStep_failed_grows actEg s' ie) expEg.enum s
  have htags : ∃ t, (validate_tags s expT actT).1.failed = s.failed ++ t := by
    unfold validate_tags
    exact foldl_failed_grows (tagStep actT) (fun s' kv => tagStep_failed_grows actT s' kv) expT s
  have houtputs : ∃ t, (validate_terraform_outputs sgid sg s (some o)).1.failed =
      s.failed ++ t := by
    obtain ⟨t1, h1⟩ := vtoId_failed_grows sgid o s
    obtain ⟨t2, h2⟩ := vtoName_failed_grows sg o (vtoId sgid o s)
    refine ⟨t1 ++ t2, ?_⟩
    show (vtoArn sgid o (vtoName sg o (vtoId sgid o s))).failed = _
    rw [vtoArn_failed, h2, h1, List.append_assoc]
  refine ⟨⟨rfl, hbasic⟩, ⟨rfl, hingress⟩, ⟨rfl, hegress⟩, ⟨rfl, htags⟩, ⟨rfl, houtputs⟩,
    rfl, ?_⟩
  intro hne
  obtain ⟨t1, h1⟩ := hbasic
  obtain ⟨t2, h2⟩ := hingress
  obtain ⟨t3, h3⟩ := hegress
  obtain ⟨t4, h4⟩ := htags
  obtain ⟨t5, h5⟩ := houtputs
  refine ⟨?_, ?_, ?_, ?_, ?_⟩
  · show (validate_basic_properties s cfg sg).1.failed.isEmpty = false
    rw [h1]; exact isEmpty_append_of_ne_nil t1 hne
  · show (validate_ingress_rules s expIn actIn).1.failed.isEmpty = false
    rw [h2]; exact isEmpty_append_of_ne_nil t2 hne
  · show (validate_egress_rules s expEg actEg).1.failed.isEmpty = false
    rw [h3]; exact isEmpty_append_of_ne_nil t3 hne
  · show (validate_tags s expT actT).1.failed.isEmpty = false
    rw [h4]; exact isEmpty_append_of_ne_nil t4 hne
  · show (validate_terraform_outputs sgid sg s (some o)).1.failed.isEmpty = false
    rw [h5]; exact isEmpty_append_of_ne_nil t5 hne

/-- Witness for C10 (amended): with one recorded failure, the tags step on
matching tags still returns False. -/
theorem c10_cumulative_failures_amended_witness :
    (validate_tags ⟨[], [Entry.tagMissing "Name"], []⟩ [("Environment", "prod")]
      [("Environment", "prod")]).2 = false :=
  ((c10_cumulative_failures_amended ⟨[], [Entry.tagMissing "Name"], []⟩ tagCfg tagSg
    [] [] [] [] [("Environment", "prod")] [("Environment", "prod")] "sg-123"
    ⟨none, none, none⟩).2.2.2.2.2.2 (by decide)).2.2.2.1

end PostDeploy

namespace Orchestrator

/-- The phase loop never emits a teardown event. -/
theorem runPhasesLoop_no_teardown (ff : Bool) :
    ∀ (idx : Nat) (l : List Phase) (st : RunnerState) (b : Bool),
      Event.teardown ∉ (runPhasesLoop ff idx l st b).2.2
  | _, [], _, _ => by simp [runPhasesLoop]
  | idx, f :: rest, st, b => by
    unfold runPhasesLoop
    by_cases h1 : (f st).2 = some true
    · rw [if_pos h1]
      intro hmem
      rcases List.mem_cons.mp hmem with h | h
      · exact Event.noConfusion h
      · exact runPhasesLoop_no_teardown ff (idx + 1) rest (f st).1 b h
    · rw [if_neg h1]
      by_cases h2 : ff = true
      · rw [if_pos h2]
        intro hmem
        rcases List.mem_cons.mp hmem with h | h
        · exact Event.noConfusion h
        · exact absurd h (List.not_mem_nil _)
      · rw [if_neg h2]
        intro hmem
        rcases List.mem_cons.mp hmem with h | h
        · exact Event.noConfusion h
        · exact runPhasesLoop_no_teardown ff (idx + 1) rest (f st).1 false h

/-- The final state of the loop is independent of the index counter and of
the incoming all_passed flag. -/
theorem runPhasesLoop_state (ff : Bool) :
    ∀ (idx idx' : Nat) (l : List Phase) (st : RunnerState) (b b' : Bool),
      (runPhasesLoop ff idx l st b).1 = (runPhasesLoop ff idx' l st b').1
  | _, _, [], _, _, _ => rfl
  | idx, idx', f :: rest, st, b, b' => by
    unfold runPhasesLoop
    by_cases h1 : (f st).2 = some true
    · rw [if_pos h1, if_pos h1]
      exact runPhasesLoop_state ff (idx + 1) (idx' + 1) rest (f st).1 b b'
    · rw [if_neg h1, if_neg h1]
      by_cases h2 : ff = true
      · rw [if_pos h2, if_pos h2]
      · rw [if_neg h2, if_neg h2]
        exact runPhasesLoop_state ff (idx + 1) (idx' + 1) rest (f st).1 false false

/-- Once all_passed is false it stays false. -/
theorem runPhasesLoop_false (ff : Bool) :
    ∀ (idx : Nat) (l : List Phase) (st : RunnerState),
      (runPhasesLoop ff idx l st false).2.1 = false
  | _, [], _ => rfl
  | idx, f :: rest, st => by
    unfold runPhasesLoop
    by_cases h1 : (f st).2 = some true
    · rw [if_pos h1]
      exact runPhasesLoop_false ff (idx + 1) rest (f st).1
    · rw [if_neg h1]
      by_cases h2 : ff = true
      · rw [if_pos h2]
      · rw [if_neg h2]
        exact runPhasesLoop_false ff (idx + 1) rest (f st).1

/-- A raising phase anywhere in the list makes the loop verdict false. -/
theorem runPhasesLoop_raise_false (ff : Bool) :
    ∀ (idx : Nat) (pre post : List Phase) (st : RunnerState) (b : Bool),
      (runPhasesLoop ff idx (pre ++ (fun s => (s, none)) :: post) st b).2.1 = false
  | idx, [], post, st, b => by
    rw [List.nil_append]
    unfold runPhasesLoop
    dsimp only
    rw [if_neg (by simp)]
    by_cases h2 : ff = true
    · rw [if_pos h2]
    · rw [if_neg h2]
      exact runPhasesLoop_false ff (idx + 1) post st
  | idx, f :: pre, post, st, b => by
    show (runPhasesLoop ff idx (f :: (pre ++ _ :: post)) st b).2.1 = false
    unfold runPhasesLoop
    by_cases h1 : (f st).2 = some true
    · rw [if_pos h1]
      exact runPhasesLoop_raise_false ff (idx + 1) pre post (f st).1 b
    · rw [if_neg h1]
      by_cases h2 : ff = true
      · rw [if_pos h2]
      · rw [if_neg h2]
        exact runPhasesLoop_raise_false ff (idx + 1) pre post (f st).1 false

/-- With fail-fast off, a phase that raises without touching the state leaves
the final state exactly as if it had not been in the phase list. -/
theorem runPhasesLoop_raise_state :
    ∀ (idx idx' : Nat) (pre post : List Phase) (st : RunnerState) (b b' : Bool),
      (runPhasesLoop false idx (pre ++ (fun s => (s, none)) :: post) st b).1 =
        (runPhasesLoop false idx' (pre ++ post) st b').1
  | idx, idx', [], post, st, b, b' => by
    rw [List.nil_append, List.nil_append]
    conv_lhs => rw [runPhasesLoop]
    dsimp only
    rw [if_neg (by simp), if_neg (by simp)]
    exact runPhasesLoop_state false (idx + 1) idx' post st false b'
  | idx, idx', f :: pre, post, st, b, b' => by
    show (runPhasesLoop false idx (f :: (pre ++ _ :: post)) st b).1 =
      (runPhasesLoop false idx' (f :: (pre ++ post)) st b').1
    unfold runPhasesLoop
    by_cases h1 : (f st).2 = some true
    · rw [if_pos h1, if_pos h1]
      exact runPhasesLoop_raise_state (idx + 1) (idx' + 1) pre post (f st).1 b b'
    · rw [if_neg h1, if_neg h1, if_neg (by simp), if_neg (by simp)]
      exact runPhasesLoop_raise_state (idx + 1) (idx' + 1) pre post (f st).1 false false

/-- Counterexample to C3 as stated: in a run whose only fault is a malformed
terraform output JSON, the json.loads exception is raised inside the
deployment phase; the run completes with overall failure, but the phase's
recorded status stays pending and no error detail is recorded — the
orchestrator does not record the phase as failed with the error text. -/
theorem c3_counterexample :
    (runAllTests cfgDefault envJsonRaise initialRunnerState).1.results.integration_test.status =
      PhaseStatus.pending ∧
    (runAllTests cfgDefault envJsonRaise
      initialRunnerState).1.results.integration_test.details = [] ∧
    (runAllTests cfgDefault envJsonRaise initialRunnerState).2.1 = false := by decide

/-- Claim C3 (amended): an exception raised in a phase is caught at the
orchestrator boundary and does not propagate: the run's verdict becomes
failed, the teardown step is still reached when cleanup is enabled, and —
with fail-fast off — the run continues through the remaining phases; but the
raising phase's PhaseResult is left exactly as the phase left it (pending,
with no error detail, when it raised before recording anything), not set to
failed. -/
theorem c3_exception_containment_amended (cfg : RunConfig) (pre post : List Phase)
    (dOk : Bool) (st : RunnerState) :
    (run_all_phases cfg (pre ++ (fun s => (s, none)) :: post) dOk st).2.1 = false ∧
    (cfg.cleanup = true →
      Event.teardown ∈ (run_all_phases cfg (pre ++ (fun s => (s, none)) :: post) dOk st).2.2) ∧
    (cfg.fail_fast = false →
      (run_all_phases cfg (pre ++ (fun s => (s, none)) :: post) dOk st).1 =
        (run_all_phases cfg (pre ++ post) dOk st).1) := by
  refine ⟨?_, ?_, ?_⟩
  · exact runPhasesLoop_raise_false cfg.fail_fast 0 pre post st true
  · intro h
    show Event.teardown ∈ _ ++ (if cfg.cleanup then (cleanup cfg dOk).1 else [])
    rw [h]
    refine List.mem_append_right _ ?_
    simp [cleanup, h]
  · intro hff
    show (runPhasesLoop cfg.fail_fast 0 _ st true).1 = (runPhasesLoop cfg.fail_fast 0 _ st true).1
    rw [hff]
    exact runPhasesLoop_raise_state 0 0 pre post st true true

/-- Witness for C3 (amended) on the concrete runner: the raising phase is
the json.loads failure of the deployment phase. -/
theorem c3_exception_containment_amended_witness :
    (run_all_phases cfgDefault
      ([] ++ (fun s => (s, none)) :: []) true initialRunnerState).2.1 = false ∧
    Event.teardown ∈ (run_all_phases cfgDefault
      ([] ++ (fun s => (s, none)) :: []) true initialRunnerState).2.2 :=
  ⟨(c3_exception_containment_amended cfgDefault [] [] true initialRunnerState).1,
   (c3_exception_containment_amended cfgDefault [] [] true initialRunnerState).2.1 rfl⟩

/-- Claim C4: once the phase sequence ends — whatever the phase results,
including failures and raised exceptions — the teardown is attempted exactly
once when cleanup is enabled and not at all when it is disabled; it comes
after every phase event; and the teardown's own success or failure changes
neither any phase's recorded result nor the overall verdict. -/
theorem c4_cleanup_guarantee (cfg : RunConfig) (phases : List Phase) (dOk : Bool)
    (st : RunnerState) :
    (cfg.cleanup = true →
      ((run_all_phases cfg phases dOk st).2.2).count Event.teardown = 1 ∧
      ∃ tr, (run_all_phases cfg phases dOk st).2.2 = tr ++ [Event.teardown] ∧
        Event.teardown ∉ tr) ∧
    (cfg.cleanup = false →
      ((run_all_phases cfg phases dOk st).2.2).count Event.teardown = 0) ∧
    (run_all_phases cfg phases true st).1 = (run_all_phases cfg phases false st).1 ∧
    (run_all_phases cfg phases true st).2.1 = (run_all_phases cfg phases false st).2.1 := by
  refine ⟨?_, ?_, rfl, rfl⟩
  · intro h
    have hctr : (if cfg.cleanup then (cleanup cfg dOk).1 else []) = [Event.teardown] := by
      simp [cleanup, h]
    constructor
    · show ((runPhasesLoop cfg.fail_fast 0 phases st true).2.2 ++ _).count Event.teardown = 1
      rw [hctr, List.count_append,
        List.count_eq_zero.mpr (runPhasesLoop_no_teardown cfg.fail_fast 0 phases st true)]
      rfl
    · exact ⟨(runPhasesLoop cfg.fail_fast 0 phases st true).2.2,
        by rw [show (run_all_phases cfg phases dOk st).2.2 =
          (runPhasesLoop cfg.fail_fast 0 phases st true).2.2 ++
            (if cfg.cleanup then (cleanup cfg dOk).1 else []) from rfl, hctr],
        runPhasesLoop_no_teardown cfg.fail_fast 0 phases st true⟩
  · intro h
    show ((runPhasesLoop cfg.fail_fast 0 phases st true).2.2 ++ _).count Event.teardown = 0
    rw [show (if cfg.cleanup then (cleanup cfg dOk).1 else []) = [] by simp [h],
      List.append_nil]
    exact List.count_eq_zero.mpr (runPhasesLoop_no_teardown cfg.fail_fast 0 phases st true)

/-- Witness for C4 on an empty phase list with the default configuration. -/
theorem c4_cleanup_guarantee_witness :
    ((run_all_phases cfgDefault [] true initialRunnerState).2.2).count Event.teardown = 1 :=
  ((c4_cleanup_guarantee cfgDefault [] true initialRunnerState).1 rfl).1

/-- Breaking step: under fail-fast, a phase returning False or raising stops
the loop at once — the remaining phases are not executed and the state is
exactly as the failing phase left it. -/
theorem runPhasesLoop_break (idx : Nat) (f : Phase) (post : List Phase) (st : RunnerState)
    (b : Bool) (hf : (f st).2 ≠ some true) :
    runPhasesLoop true idx (f :: post) st b = ((f st).1, false, [Event.phase idx]) := by
  unfold runPhasesLoop
  rw [if_neg hf, if_pos rfl]

/-- Unfolding of the loop on a phase that returns True: the loop records the
phase's event and continues from the state the phase produced. -/
theorem runPhasesLoop_cons_pass (idx : Nat) (f : Phase) (rest : List Phase) (st : RunnerState)
    (b : Bool) (h1 : (f st).2 = some true) :
    runPhasesLoop true idx (f :: rest) st b =
      ((runPhasesLoop true (idx + 1) rest (f st).1 b).1,
       (runPhasesLoop true (idx + 1) rest (f st).1 b).2.1,
       Event.phase idx :: (runPhasesLoop true (idx + 1) rest (f st).1 b).2.2) := by
  conv_lhs => rw [runPhasesLoop]
  rw [if_pos h1]

/-- Under fail-fast, a prefix of phases that all return True composes: the
loop over the appended list runs the prefix and continues with the rest from
the prefix's final state. -/
theorem runPhasesLoop_append_pass :
    ∀ (idx : Nat) (pre rest : List Phase) (st : RunnerState),
      (runPhasesLoop true idx pre st true).2.1 = true →
      runPhasesLoop true idx (pre ++ rest) st true =
        ((runPhasesLoop true (idx + pre.length) rest
            (runPhasesLoop true idx pre st true).1 true).1,
         (runPhasesLoop true (idx + pre.length) rest
            (runPhasesLoop true idx pre st true).1 true).2.1,
         (runPhasesLoop true idx pre st true).2.2 ++
           (runPhasesLoop true (idx + pre.length) rest
              (runPhasesLoop true idx pre st true).1 true).2.2)
  | _, [], _, _, _ => rfl
  | idx, f :: pre, rest, st, hpre => by
    by_cases h1 : (f st).2 = some true
    · have hpre' : (runPhasesLoop true (idx + 1) pre (f st).1 true).2.1 = true := by
        have h := hpre
        rw [runPhasesLoop_cons_pass idx f pre st true h1] at h
        exact h
      have ih := runPhasesLoop_append_pass (idx + 1) pre rest (f st).1 hpre'
      rw [List.cons_append]
      rw [runPhasesLoop_cons_pass idx f (pre ++ rest) st true h1,
        runPhasesLoop_cons_pass idx f pre st true h1]
      rw [ih]
      have hidx : idx + (f :: pre).length = idx + 1 + pre.length := by
        rw [List.length_cons]
        omega
      rw [hidx]
      simp [List.cons_append]
    · exfalso
      rw [runPhasesLoop_break idx f pre st true h1] at hpre
      simp at hpre

/-- Claim C5: with fail-fast enabled, whenever a phase fails or raises
(after any prefix of passing phases), no later phase is executed: the run is
literally identical to the run with the later phases removed, the final
state is exactly the state the failing phase left (so every remaining
phase's result keeps its prior pending value), the event trace holds the
prefix's phase events, the failing phase's event and then only the teardown
when cleanup is enabled, and the process exit code is 1.  Also instantiated
on the concrete four-phase runner, both for phase 1 failing (nonzero
validation exit: the three later statuses stay pending, the trace is phase 0
then teardown, exit code 1) and for phase 3 raising (malformed output JSON:
the raising and remaining phases stay pending, exit code 1). -/
theorem c5_fail_fast :
    (∀ (cfg : RunConfig) (pre post : List Phase) (f : Phase) (dOk : Bool) (st : RunnerState),
      cfg.fail_fast = true →
      (runPhasesLoop true 0 pre st true).2.1 = true →
      (f (runPhasesLoop true 0 pre st true).1).2 ≠ some true →
      run_all_phases cfg (pre ++ f :: post) dOk st = run_all_phases cfg (pre ++ [f]) dOk st ∧
      (run_all_phases cfg (pre ++ f :: post) dOk st).1 =
        (f (runPhasesLoop true 0 pre st true).1).1 ∧
      (run_all_phases cfg (pre ++ f :: post) dOk st).2.2 =
        (runPhasesLoop true 0 pre st true).2.2 ++ [Event.phase pre.length] ++
          (if cfg.cleanup = true then [Event.teardown] else []) ∧
      mainExitCode (run_all_phases cfg (pre ++ f :: post) dOk st).2.1 = 1) ∧
    ((runAllTests cfgFailFast envPhase1Fails initialRunnerState).1.results.pre_deployment.status
        = PhaseStatus.failed ∧
      (runAllTests cfgFailFast envPhase1Fails
        initialRunnerState).1.results.terraform_test.status = PhaseStatus.pending ∧
      (runAllTests cfgFailFast envPhase1Fails
        initialRunnerState).1.results.integration_test.status = PhaseStatus.pending ∧
      (runAllTests cfgFailFast envPhase1Fails
        initialRunnerState).1.results.post_deployment.status = PhaseStatus.pending ∧
      (runAllTests cfgFailFast envPhase1Fails initialRunnerState).2.2 =
        [Event.phase 0, Event.teardown] ∧
      mainExitCode (runAllTests cfgFailFast envPhase1Fails initialRunnerState).2.1 = 1) ∧
    ((runAllTests cfgFailFast envJsonRaise
        initialRunnerState).1.results.integration_test.status = PhaseStatus.pending ∧
      (runAllTests cfgFailFast envJsonRaise
        initialRunnerState).1.results.post_deployment.status = PhaseStatus.pending ∧
      (runAllTests cfgFailFast envJsonRaise initialRunnerState).2.2 =
        [Event.phase 0, Event.phase 1, Event.phase 2, Event.teardown] ∧
      mainExitCode (runAllTests cfgFailFast envJsonRaise initialRunnerState).2.1 = 1) := by
  refine ⟨?_, by decide, by decide⟩
  intro cfg pre post f dOk st hff hpre hf
  have happ := runPhasesLoop_append_pass 0 pre (f :: post) st hpre
  have happ1 := runPhasesLoop_append_pass 0 pre [f] st hpre
  have hbrk := runPhasesLoop_break (0 + pre.length) f post
    (runPhasesLoop true 0 pre st true).1 true hf
  have hbrk1 := runPhasesLoop_break (0 + pre.length) f []
    (runPhasesLoop true 0 pre st true).1 true hf
  have hctr : (if cfg.cleanup then (cleanup cfg dOk).1 else []) =
      (if cfg.cleanup = true then [Event.teardown] else []) := by
    by_cases hc : cfg.cleanup
    · simp [cleanup, hc]
    · simp [hc]
  have hmain : run_all_phases cfg (pre ++ f :: post) dOk st =
      ((f (runPhasesLoop true 0 pre st true).1).1, false,
        ((runPhasesLoop true 0 pre st true).2.2 ++ [Event.phase (0 + pre.length)]) ++
          (if cfg.cleanup = true then [Event.teardown] else [])) := by
    unfold run_all_phases
    dsimp only
    rw [hff, happ, hbrk, hctr]
  have hmain1 : run_all_phases cfg (pre ++ [f]) dOk st =
      ((f (runPhasesLoop true 0 pre st true).1).1, false,
        ((runPhasesLoop true 0 pre st true).2.2 ++ [Event.phase (0 + pre.length)]) ++
          (if cfg.cleanup = true then [Event.teardown] else [])) := by
    unfold run_all_phases
    dsimp only
    rw [hff, happ1, hbrk1, hctr]
  refine ⟨by rw [hmain, hmain1], by rw [hmain], ?_, by rw [hmain]; rfl⟩
  rw [hmain, Nat.zero_add]

/-- Witness for C5: the general part applied to a phase that fails at once
from the initial state, with an empty prefix and no later phases. -/
theorem c5_fail_fast_witness :
    mainExitCode (run_all_phases cfgFailFast
      ([] ++ (fun s => (s, some false)) :: []) true initialRunnerState).2.1 = 1 :=
  (c5_fail_fast.1 cfgFailFast [] [] (fun s => (s, some false)) true initialRunnerState
    rfl rfl (by decide)).2.2.2

end Orchestrator

namespace ConfigVal

/-- The port scan touches only the warnings list. -/
theorem cfgPortScan_errors (n : Nat) (fp tp : Int) (s : CResults) :
    (cfgPortScan n fp tp s).errors = s.errors := by
  unfold cfgPortScan
  refine foldl_invariant _ (fun st : CResults => st.errors = s.errors) _ _
    (fun s' a _ h => ?_) rfl
  split
  · exact h
  · exact h

/-- The port scan never removes a warning. -/
theorem cfgPortScan_warnings_mono (n : Nat) (fp tp : Int) (x : CEntry) (s : CResults)
    (hx : x ∈ s.warnings) : x ∈ (cfgPortScan n fp tp s).warnings := by
  unfold cfgPortScan
  refine foldl_invariant _ (fun st : CResults => x ∈ st.warnings) _ _
    (fun s' a _ h => ?_) hx
  split
  · exact List.mem_append_left _ h
  · exact h

/-- The description check touches only the warnings list. -/
theorem cfgDescriptionCheck_errors (n : Nat) (d : Option String) (s : CResults) :
    (cfgDescriptionCheck n d s).errors = s.errors := by
  unfold cfgDescriptionCheck
  split
  · split <;> rfl
  · rfl

/-- The description check never removes a warning. -/
theorem cfgDescriptionCheck_warnings_mono (n : Nat) (d : Option String) (x : CEntry)
    (s : CResults) (hx : x ∈ s.warnings) : x ∈ (cfgDescriptionCheck n d s).warnings := by
  unfold cfgDescriptionCheck
  split
  · split
    · exact List.mem_append_left _ hx
    · exact hx
  · exact List.mem_append_left _ hx

/-- An error-only update under an if keeps any warning. -/
theorem mem_warnings_ite_errors_update (c : Prop) [Decidable c] (s : CResults)
    (y : List CEntry) (x : CEntry) (hx : x ∈ s.warnings) :
    x ∈ (if c then {s with errors := y} else s).warnings := by
  split
  · exact hx
  · exact hx

/-- A conditional append to warnings keeps any warning. -/
theorem mem_warnings_ite_append (c : Prop) [Decidable c] (v : CResults) (y : List CEntry)
    (x : CEntry) (hx : x ∈ v.warnings) :
    x ∈ (if c then v else {v with warnings := v.warnings ++ y}).warnings := by
  split
  · exact hx
  · exact List.mem_append_left _ hx

/-- A conditional port scan keeps any warning. -/
theorem mem_warnings_ite_scan (c : Prop) [Decidable c] (n : Nat) (fp tp : Int) (v : CResults)
    (x : CEntry) (hx : x ∈ v.warnings) :
    x ∈ (if c then cfgPortScan n fp tp v else v).warnings := by
  split
  · exact cfgPortScan_warnings_mono n fp tp x v hx
  · exact hx

/-- A conditional port scan never changes the errors list. -/
theorem ite_scan_errors (c : Prop) [Decidable c] (n : Nat) (fp tp : Int) (v : CResults) :
    (if c then cfgPortScan n fp tp v else v).errors = v.errors := by
  split
  · exact cfgPortScan_errors n fp tp v
  · rfl

/-- A conditional warnings append never changes the errors list. -/
theorem ite_warnings_update_errors (c : Prop) [Decidable c] (v : CResults)
    (y : List CEntry) : (if c then v else {v with warnings := y}).errors = v.errors := by
  split <;> rfl

/-- A conditional append to the errors list is an append. -/
theorem ite_errors_append_grows (c : Prop) [Decidable c] (s : CResults) (y : List CEntry) :
    ∃ t, (if c then {s with errors := s.errors ++ y} else s).errors = s.errors ++ t := by
  split
  · exact ⟨_, rfl⟩
  · exact ⟨[], by simp⟩

/-- A rule with missing required fields records exactly its missing-fields
error. -/
theorem cfgIngressRuleStep_adds_missing (s : CResults) (ie : Nat × ExpectedRule)
    (h : required_fields_missing ie.2 ≠ []) :
    CEntry.missingFields (ie.1 + 1) (required_fields_missing ie.2) ∈
      (cfgIngressRuleStep s ie).errors := by
  unfold cfgIngressRuleStep
  rw [if_pos h]
  exact List.mem_append_right _ (by simp)

/-- The errors recorded by a step on a rule with all required fields
present: exactly the inverted-range error when fromPort > toPort. -/
theorem cfgIngressRuleStep_errors_of_fields (i : Nat) (fp tp : Int) (proto : String)
    (cbs : List String) (d : Option String) (s : CResults) :
    (cfgIngressRuleStep s (i, ⟨some proto, some fp, some tp, some cbs, d⟩)).errors =
      s.errors ++ (if fp > tp then [CEntry.portRangeInverted (i + 1) fp tp] else []) := by
  unfold cfgIngressRuleStep
  rw [if_neg (by simp [required_fields_missing])]
  dsimp only
  rw [cfgDescriptionCheck_errors, ite_scan_errors, ite_warnings_update_errors]
  by_cases hgt : fp > tp
  · rw [if_pos hgt, if_pos hgt]
  · rw [if_neg hgt, if_neg hgt, List.append_nil]

/-- A well-formed rule with an unrecognized protocol records the unusual
protocol warning. -/
theorem cfgIngressRuleStep_adds_unusual (i : Nat) (fp tp : Int) (proto : String)
    (cbs : List String) (d : Option String) (s : CResults) (hp : proto ∉ valid_protocols) :
    CEntry.unusualProtocol (i + 1) proto ∈
      (cfgIngressRuleStep s (i, ⟨some proto, some fp, some tp, some cbs, d⟩)).warnings := by
  unfold cfgIngressRuleStep
  rw [if_neg (by simp [required_fields_missing])]
  dsimp only
  refine cfgDescriptionCheck_warnings_mono _ _ _ _ ?_
  refine mem_warnings_ite_scan _ _ _ _ _ _ ?_
  rw [if_neg hp]
  exact List.mem_append_right _ (by simp)

/-- The step only appends to the errors list. -/
theorem cfgIngressRuleStep_errors_grows (s : CResults) (ie : Nat × ExpectedRule) :
    ∃ t, (cfgIngressRuleStep s ie).errors = s.errors ++ t := by
  unfold cfgIngressRuleStep
  dsimp only
  by_cases hmiss : required_fields_missing ie.2 ≠ []
  · rw [if_pos hmiss]
    exact ⟨_, rfl⟩
  · rw [if_neg hmiss]
    split
    · rw [cfgDescriptionCheck_errors, ite_scan_errors, ite_warnings_update_errors]
      exact ite_errors_append_grows _ s _
    · exact ⟨[], by simp⟩

/-- The step never removes an error. -/
theorem cfgIngressRuleStep_errors_mono (x : CEntry) (s : CResults) (ie : Nat × ExpectedRule)
    (hx : x ∈ s.errors) : x ∈ (cfgIngressRuleStep s ie).errors := by
  obtain ⟨t, ht⟩ := cfgIngressRuleStep_errors_grows s ie
  rw [ht]
  exact List.mem_append_left _ hx

/-- The step never removes a warning. -/
theorem cfgIngressRuleStep_warnings_mono (x : CEntry) (s : CResults) (ie : Nat × ExpectedRule)
    (hx : x ∈ s.warnings) : x ∈ (cfgIngressRuleStep s ie).warnings := by
  unfold cfgIngressRuleStep
  dsimp only
  by_cases hmiss : required_fields_missing ie.2 ≠ []
  · rw [if_pos hmiss]
    exact hx
  · rw [if_neg hmiss]
    split
    · refine cfgDescriptionCheck_warnings_mono _ _ _ _ ?_
      refine mem_warnings_ite_scan _ _ _ _ _ _ ?_
      refine mem_warnings_ite_append _ _ _ _ ?_
      exact mem_warnings_ite_errors_update _ _ _ _ hx
    · exact hx

/-- Counterexample to C8 as stated: a rule whose protocol gre is not among
the recognized protocols, with all fields present and a valid range, is
accepted — the static validation returns True with no error, recording only
an unusual-protocol warning. -/
theorem c8_counterexample :
    (validate_ingress_rules ⟨[], []⟩ [greRule]).2 = true ∧
    (validate_ingress_rules ⟨[], []⟩ [greRule]).1.errors = [] ∧
    (validate_ingress_rules ⟨[], []⟩ [greRule]).1.warnings =
      [CEntry.unusualProtocol 1 "gre"] := by decide

/-- Claim C8 (amended): static validation records a missing-fields error for
every rule lacking one of from_port, to_port, protocol, cidr_blocks; it
records an inverted-range error whenever from_port exceeds to_port; on a
nonempty rule list it returns True iff the cumulative errors list is empty;
but an unrecognized protocol only yields the unusual-protocol warning — it
is not an error and does not fail the validation. -/
theorem c8_static_validation_amended (s : CResults) (rules : List ExpectedRule)
    (i : Nat) (e : ExpectedRule) (hi : (i, e) ∈ rules.enum) :
    (required_fields_missing e ≠ [] →
      CEntry.missingFields (i + 1) (required_fields_missing e) ∈
        (validate_ingress_rules s rules).1.errors) ∧
    (∀ fp tp proto cbs d, e = ⟨some proto, some fp, some tp, some cbs, d⟩ → fp > tp →
      CEntry.portRangeInverted (i + 1) fp tp ∈ (validate_ingress_rules s rules).1.errors) ∧
    (∀ fp tp proto cbs d, e = ⟨some proto, some fp, some tp, some cbs, d⟩ →
      proto ∉ valid_protocols →
      CEntry.unusualProtocol (i + 1) proto ∈ (validate_ingress_rules s rules).1.warnings) ∧
    ((validate_ingress_rules s rules).2 = (validate_ingress_rules s rules).1.errors.isEmpty) := by
  have hne : rules.isEmpty = false := by
    cases rules with
    | nil => exact absurd hi (by simp)
    | cons a l => rfl
  have hunfold : validate_ingress_rules s rules =
      (rules.enum.foldl cfgIngressRuleStep s,
        (rules.enum.foldl cfgIngressRuleStep s).errors.isEmpty) := by
    unfold validate_ingress_rules
    rw [hne]
    rfl
  refine ⟨?_, ?_, ?_, by rw [hunfold]⟩
  · intro hmiss
    rw [hunfold]
    exact foldl_mem_of_mem cfgIngressRuleStep
      (fun st => CEntry.missingFields (i + 1) (required_fields_missing e) ∈ st.errors)
      (i, e) rules.enum s hi
      (fun s' a _ h => cfgIngressRuleStep_errors_mono _ s' a h)
      (fun s' => cfgIngressRuleStep_adds_missing s' (i, e) hmiss)
  · intro fp tp proto cbs d he hgt
    rw [hunfold]
    refine foldl_mem_of_mem cfgIngressRuleStep
      (fun st => CEntry.portRangeInverted (i + 1) fp tp ∈ st.errors)
      (i, e) rules.enum s hi
      (fun s' a _ h => cfgIngressRuleStep_errors_mono _ s' a h)
      (fun s' => ?_)
    show CEntry.portRangeInverted (i + 1) fp tp ∈ (cfgIngressRuleStep s' (i, e)).errors
    rw [he, cfgIngressRuleStep_errors_of_fields, if_pos hgt]
    exact List.mem_append_right _ (by simp)
  · intro fp tp proto cbs d he hp
    rw [hunfold]
    refine foldl_mem_of_mem cfgIngressRuleStep
      (fun st => CEntry.unusualProtocol (i + 1) proto ∈ st.warnings)
      (i, e) rules.enum s hi
      (fun s' a _ h => cfgIngressRuleStep_warnings_mono _ s' a h)
      (fun s' => ?_)
    show CEntry.unusualProtocol (i + 1) proto ∈ (cfgIngressRuleStep s' (i, e)).warnings
    rw [he]
    exact cfgIngressRuleStep_adds_unusual i fp tp proto cbs d s' hp

/-- Witness for C8 (amended) at a rule missing every required field. -/
theorem c8_static_validation_amended_witness :
    CEntry.missingFields 1 ["from_port", "to_port", "protocol", "cidr_blocks"] ∈
      (validate_ingress_rules ⟨[], []⟩ [⟨none, none, none, none, none⟩]).1.errors :=
  (c8_static_validation_amended ⟨[], []⟩ [⟨none, none, none, none, none⟩] 0
    ⟨none, none, none, none, none⟩ (by decide)).1 (by decide)

end ConfigVal

end SGTest
